import Mathlib

/-!
Verification of `infection.py` from `python_corona_simulation`.

The numpy population matrix is embedded as a list of `Agent` records, one
per row, with the columns this module touches given names following the
data model: column 0 `id`, 1 `x`, 2 `y`, 6 `state`, 7 `age`,
8 `infection_frame`, 9 `recovery_threshold`, 10 `in_treatment`,
11 `dest_index`, 13 `wander_x`, 14 `wander_y`.  Floating point values are
embedded as rationals, and the process-wide numpy random source as an
explicit list of draws consumed in call order (an exhausted list yields 0;
all theorems quantify over the draw list).  The motion collaborator
`get_motion_parameters`, imported from the out-of-scope `motion` module,
is passed in as an explicit function parameter.
-/

namespace CoronaSim

/-- The four values of the numeric `state` column:
healthy = 0, infected = 1, recovered = 2, dead = 3. -/
inductive HState where
  | healthy
  | infected
  | recovered
  | dead
  deriving DecidableEq, Repr

/-- One row of the population matrix, restricted to the columns read or
written by `infection.py`. -/
structure Agent where
  id : Nat
  x : ℚ
  y : ℚ
  state : HState
  age : Nat
  infection_frame : Nat
  recovery_threshold : ℚ
  in_treatment : Bool
  dest_index : Nat
  wander_x : ℚ
  wander_y : ℚ
  deriving DecidableEq, Repr

abbrev Population := List Agent

/-- One row of the destinations matrix (flat list of center coordinates,
two entries per destination slot). -/
abbrev DestRow := List ℚ

abbrev Dests := List DestRow

/-- The stream of draws of the process-wide random source. -/
abbrev RNG := List ℚ

/-- One call to `np.random.random()` / `np.random.uniform()`: consume the
next draw of the stream. -/
def rdraw : RNG → ℚ × RNG
  | [] => (0, [])
  | x :: xs => (x, xs)

/-- In-place update of row `n` of a matrix, the embedding of a numpy row
assignment `m[n] = f(m[n])`.  Out-of-range indices leave the list
unchanged (numpy would raise; no call site in this development reaches
that case). -/
def lmod {α : Type} : Nat → (α → α) → List α → List α
  | _, _, [] => []
  | 0, f, a :: as => f a :: as
  | n + 1, f, a :: as => a :: lmod n f as

/-- The `risk_increase` configuration string of `compute_mortality`. -/
inductive RiskMode where
  | linear
  | quadratic
  deriving DecidableEq, Repr

/-- The interior linear branch of `compute_mortality` (source lines
305-309). -/
def linearRisk (age risk_age critical_age : Nat)
    (critical_mortality_chance : ℚ) : ℚ :=
  let step_increase :=
    critical_mortality_chance / (((critical_age : ℚ) - (risk_age : ℚ)) + 1)
  critical_mortality_chance - (((critical_age : ℚ) - (age : ℚ)) * step_increase)

/-- The constant `a` of the quadratic branch of `compute_mortality`
(source line 314).  The source sets
`A = np.exp(np.log(mortality_chance / critical_mortality_chance) / 15)`,
the fifteenth root of the ratio of the two chances; rationals have no
fifteenth root, so `A` is taken as a parameter throughout, constrained in
the theorems by `A ^ 15 * critical_mortality_chance = mortality_chance`
and `0 < A`. -/
def quadA (risk_age critical_age : Nat) (A : ℚ) : ℚ :=
  (((risk_age : ℚ) - 1) - (critical_age : ℚ) * A) / (A - 1)

/-- The constant `b` of the quadratic branch (source line 315). -/
def quadB (risk_age critical_age : Nat) (mortality_chance A : ℚ) : ℚ :=
  mortality_chance / (((risk_age : ℚ) - 1 + quadA risk_age critical_age A) ^ 15)

/-- Entry `age - 1` of `np.linspace(0, critical_age, critical_age)`
(source lines 318-321). -/
def quadX (age critical_age : Nat) : ℚ :=
  ((age : ℚ) - 1) * (critical_age : ℚ) / ((critical_age : ℚ) - 1)

/-- The interior quadratic branch of `compute_mortality` (source lines
310-321): the monomial `b * (x + a) ^ 15` read at the linspace sample
point for `age`. -/
def quadRisk (age risk_age critical_age : Nat) (mortality_chance A : ℚ) : ℚ :=
  ((quadX age critical_age + quadA risk_age critical_age A) ^ 15) *
    quadB risk_age critical_age mortality_chance A

/-- `compute_mortality` (source lines 268-327). -/
def compute_mortality (age : Nat) (mortality_chance : ℚ)
    (risk_age critical_age : Nat) (critical_mortality_chance : ℚ)
    (risk_increase : RiskMode) (A : ℚ) : ℚ :=
  if risk_age < age ∧ age < critical_age then
    match risk_increase with
    | RiskMode.linear => linearRisk age risk_age critical_age critical_mortality_chance
    | RiskMode.quadratic => quadRisk age risk_age critical_age mortality_chance A
  else if age ≤ risk_age then
    mortality_chance
  else
    critical_mortality_chance

/-- Configuration of `infect`, mirroring its keyword arguments; `motion`
is the external motion collaborator used by `go_to_location`. -/
structure InfCfg where
  pop_size : Nat
  infection_range : ℚ
  infection_chance : ℚ
  frame : Nat
  healthcare_capacity : Nat
  send_to_location : Bool
  location_bounds : ℚ × ℚ × ℚ × ℚ
  location_no : Nat
  location_odds : ℚ
  traveling_infects : Bool
  motion : ℚ × ℚ × ℚ × ℚ → ℚ × ℚ × ℚ × ℚ

/-- `infection_zone` of a reference agent (source lines 74-75 and
114-115): `(xmin, ymin, xmax, ymax)`. -/
def infection_zone (patient : Agent) (r : ℚ) : ℚ × ℚ × ℚ × ℚ :=
  (patient.x - r, patient.y - r, patient.x + r, patient.y + r)

/-- The four strict box comparisons of the neighbor filters (source lines
79-82 and 120-123). -/
def inZone (patient : Agent) (r : ℚ) (q : Agent) : Bool :=
  let z := infection_zone patient r
  decide (z.1 < q.x) && decide (q.x < z.2.2.1) &&
    decide (z.2.1 < q.y) && decide (q.y < z.2.2.2)

/-- Sparse-strategy collection of the ids of the healthy agents inside a
patient's infection zone (source lines 78-85): skipped entirely when the
patient has an active destination and `traveling_infects` is off. -/
def sparseIndices (cfg : InfCfg) (pop : Population) (patient : Agent) : List Nat :=
  if cfg.traveling_infects || patient.dest_index == 0 then
    (pop.filter (fun p => inZone patient cfg.infection_range p &&
      (p.state == HState.healthy))).map (fun p => p.id)
  else
    []

/-- `go_to_location` (source lines 363-401): write the wander envelope
into the agent, the center into the destination row, and activate the
destination. -/
def go_to_location (patient : Agent) (destination : DestRow)
    (location_bounds : ℚ × ℚ × ℚ × ℚ) (dest_no : Nat)
    (motion : ℚ × ℚ × ℚ × ℚ → ℚ × ℚ × ℚ × ℚ) : Agent × DestRow :=
  let m := motion location_bounds
  let patient1 := { patient with wander_x := m.2.2.1, wander_y := m.2.2.2 }
  let destination1 := lmod ((dest_no - 1) * 2) (fun _ => m.1) destination
  let destination2 := lmod ((dest_no - 1) * 2 + 1) (fun _ => m.2.1) destination1
  ({ patient1 with dest_index := dest_no }, destination2)

/-- The routing assignment `population[idx], destinations[idx] =
go_to_location(...)` (source lines 97-101 and 143-147). -/
def routeIdx (cfg : InfCfg) (idx : Nat) (pop : Population) (dests : Dests) :
    Population × Dests :=
  match pop[idx]?, dests[idx]? with
  | some a, some d =>
    let r := go_to_location a d cfg.location_bounds cfg.location_no cfg.motion
    (lmod idx (fun _ => r.1) pop, lmod idx (fun _ => r.2) dests)
  | _, _ => (pop, dests)

/-- `len(population[population[:,10] == 1])`: the number of agents
currently occupying a treatment slot. -/
def treatedCount (pop : Population) : Nat :=
  pop.countP (fun a => a.in_treatment)

/-- The shared infection-event block run once a die roll succeeds: mark
the row infected with the current frame, admit to treatment when the
currently-treated count is at most `healthcare_capacity`, and optionally
route (source lines 90-103 and 136-147).  The two strategies differ only
in the routing comparison: the sparse branch uses
`np.random.uniform() <= location_odds`, the dense branch uses a strict
`<`; `strictOdds` selects between them. -/
def newlyInfect (cfg : InfCfg) (idx : Nat) (strictOdds : Bool)
    (st : Population × Dests × RNG) : Population × Dests × RNG :=
  let pop := lmod idx
    (fun a => { a with state := HState.infected, infection_frame := cfg.frame }) st.1
  let dests := st.2.1
  let rng := st.2.2
  if treatedCount pop ≤ cfg.healthcare_capacity then
    let pop := lmod idx (fun a => { a with in_treatment := true }) pop
    if cfg.send_to_location then
      let d := rdraw rng
      if (if strictOdds then d.1 < cfg.location_odds else d.1 ≤ cfg.location_odds) then
        let pr := routeIdx cfg idx pop dests
        (pr.1, pr.2, d.2)
      else
        (pop, dests, d.2)
    else
      (pop, dests, rng)
  else
    (pop, dests, rng)

/-- Sparse-strategy inner body for one collected id: one
`np.random.random() < infection_chance` trial (source lines 87-104). -/
def infectIdx (cfg : InfCfg) (idx : Nat)
    (st : Population × Dests × RNG) : Population × Dests × RNG :=
  let d := rdraw st.2.2
  if d.1 < cfg.infection_chance then
    newlyInfect cfg idx false (st.1, st.2.1, d.2)
  else
    (st.1, st.2.1, d.2)

/-- Sparse-strategy loop over the collected ids of one patient. -/
def sparseInner (cfg : InfCfg) (idxs : List Nat)
    (st : Population × Dests × RNG) : Population × Dests × RNG :=
  idxs.foldl (fun s i => infectIdx cfg i s) st

/-- Sparse-strategy loop over the entry snapshot of infected patients
(source lines 72-104); the healthy neighbors of each patient are
collected from the current, possibly already mutated, population. -/
def sparsePatients (cfg : InfCfg) (patients : List Agent)
    (st : Population × Dests × RNG) : Population × Dests × RNG :=
  patients.foldl (fun s patient => sparseInner cfg (sparseIndices cfg s.1 patient) s) st

/-- Dense-strategy count of infectious neighbors of one healthy person
(source lines 119-131), over the entry snapshot of sick agents:
agents with an active destination are excluded unless
`traveling_infects` is set. -/
def denseCount (cfg : InfCfg) (sick : List Agent) (person : Agent) : Nat :=
  if cfg.traveling_infects then
    (sick.filter (fun s => inZone person cfg.infection_range s &&
      (s.state == HState.infected))).length
  else
    (sick.filter (fun s => inZone person cfg.infection_range s &&
      (s.state == HState.infected) && (s.dest_index == 0))).length

/-- Dense-strategy body for one snapshot-healthy person (source lines
112-150): one `np.random.random() < infection_chance * poplen` trial when
at least one infectious neighbor is present. -/
def densePerson (cfg : InfCfg) (sick : List Agent) (person : Agent)
    (st : Population × Dests × RNG) : Population × Dests × RNG :=
  if person.state == HState.healthy then
    let k := denseCount cfg sick person
    if 0 < k then
      let d := rdraw st.2.2
      if d.1 < cfg.infection_chance * (k : ℚ) then
        newlyInfect cfg person.id true (st.1, st.2.1, d.2)
      else
        (st.1, st.2.1, d.2)
    else
      st
  else
    st

/-- Dense-strategy loop over the entry snapshot of healthy people. -/
def densePeople (cfg : InfCfg) (people sick : List Agent)
    (st : Population × Dests × RNG) : Population × Dests × RNG :=
  people.foldl (fun s p => densePerson cfg sick p s) st

/-- The strategy selector of `infect` (source line 71):
`len(infected_previous_step) < (pop_size // 2)`, with Python floor
division. -/
def sparseSelected (cfg : InfCfg) (pop : Population) : Bool :=
  decide ((pop.filter (fun a => a.state == HState.infected)).length < cfg.pop_size / 2)

/-- `infect` (source lines 10-158).  The returned triple also carries the
state of the random stream; the source prints the newly infected ids when
`verbose` and returns the population alone when no destinations were
supplied, both immaterial to the population transform embedded here. -/
def infect (cfg : InfCfg) (pop : Population) (dests : Dests) (rng : RNG) :
    Population × Dests × RNG :=
  let infected_previous_step := pop.filter (fun a => a.state == HState.infected)
  if sparseSelected cfg pop then
    sparsePatients cfg infected_previous_step (pop, dests, rng)
  else
    let healthy_previous_step := pop.filter (fun a => a.state == HState.healthy)
    let sick_previous_step := pop.filter (fun a => a.state == HState.infected)
    densePeople cfg healthy_previous_step sick_previous_step (pop, dests, rng)

/-- Configuration of `recover_or_die`, mirroring its keyword arguments.
`riskA` is the fifteenth-root parameter forwarded to
`compute_mortality` (see `quadRisk`). -/
structure RecCfg where
  frame : Nat
  recovery_duration : ℚ × ℚ
  mortality_chance : ℚ
  risk_age : Nat
  critical_age : Nat
  critical_mortality_chance : ℚ
  risk_increase : RiskMode
  riskA : ℚ
  no_treatment_factor : ℚ
  age_dependent_risk : Bool
  treatment_dependent_risk : Bool
  treatment_factor : ℚ

/-- `np.ptp(recovery_duration)`: spread of the duration pair. -/
def ptp (p : ℚ × ℚ) : ℚ := max p.1 p.2 - min p.1 p.2

/-- The per-agent entry of `recovery_odds_vector` (source lines 215-218):
illness progress, floored at 0 and not clamped above. -/
def recoveryOdds (cfg : RecCfg) (a : Agent) : ℚ :=
  max 0 ((((cfg.frame : ℚ) - (a.infection_frame : ℚ)) - cfg.recovery_duration.1)
    / ptp cfg.recovery_duration)

/-- The body of the resolution loop of `recover_or_die` for one id drawn
from `indices` (source lines 227-255), acting on the working copy of the
sick sub-population: compute the adjusted mortality chance, roll one die,
and write dead (3) or recovered (2) with `in_treatment` cleared into
every row of the working copy carrying this id.  The source looks the
row up as `sick_people[sick_people[:,0] == idx]`; a missing id would
raise there and several ids sharing the row would raise at the
truth-value test, so those cases are embedded as the untouched default
reads. -/
def resolveOne (cfg : RecCfg) (st : List Agent × RNG) (idx : Nat) :
    List Agent × RNG :=
  let sick := st.1
  let updated0 :=
    if cfg.age_dependent_risk then
      match sick.filter (fun a => a.id == idx) with
      | [] => cfg.mortality_chance
      | a :: _ =>
        compute_mortality a.age cfg.mortality_chance cfg.risk_age
          cfg.critical_age cfg.critical_mortality_chance cfg.risk_increase cfg.riskA
    else
      cfg.mortality_chance
  let inT := (sick.filter (fun a => a.id == idx)).map (fun a => a.in_treatment)
  let updated :=
    if inT = [false] ∧ cfg.treatment_dependent_risk then
      updated0 * cfg.no_treatment_factor
    else if inT = [true] ∧ cfg.treatment_dependent_risk then
      updated0 * cfg.treatment_factor
    else
      updated0
  let d := rdraw st.2
  let newState := if d.1 ≤ updated then HState.dead else HState.recovered
  (sick.map (fun a => if a.id == idx then
    { a with state := newState, in_treatment := false } else a), d.2)

/-- The write-back `population[population[:,6] == 1] = sick_people`
(source line 263): numpy boolean-mask assignment, replacing the rows
satisfying the mask, in order, by the rows of the replacement list.  A
replacement list shorter than the mask count would make numpy raise; the
extra masked rows are kept unchanged here (no call site reaches that
case). -/
def maskAssign (p : Agent → Bool) : Population → List Agent → Population
  | [], _ => []
  | a :: as, [] => a :: maskAssign p as []
  | a :: as, r :: rs =>
    if p a then r :: maskAssign p as rs else a :: maskAssign p as (r :: rs)

/-- `recover_or_die` (source lines 161-265): snapshot the sick rows,
select the resolving ids from the snapshot, resolve each id on the
working copy, and scatter the working copy back over the rows of the
population that are still marked infected.  The printed recovery and
death lists are immaterial to the population transform embedded here. -/
def recover_or_die (cfg : RecCfg) (pop : Population) (rng : RNG) :
    Population × RNG :=
  let sick_people := pop.filter (fun a => a.state == HState.infected)
  let indices := (sick_people.filter
    (fun a => decide (a.recovery_threshold ≤ recoveryOdds cfg a))).map (fun a => a.id)
  let res := indices.foldl (fun st idx => resolveOne cfg st idx) (sick_people, rng)
  (maskAssign (fun a => a.state == HState.infected) pop res.1, res.2)

/-- `healthcare_infection_correction` (source lines 330-359).  For a
negative `healthcare_risk_factor` the source takes
`sick_workers = worker_population[:,6][worker_population[:,6] == 1]`, a
one-dimensional copy of the state column, draws one scalar
`np.random.uniform(len(sick_workers))`, and then writes through
`sick_workers[:,6][...]`; indexing a one-dimensional array with two
indices raises `IndexError` before any write-back, so the negative
branch never returns.  A zero or positive factor is a no-op. -/
def healthcare_infection_correction (worker_population : Population)
    (healthcare_risk_factor : ℚ) (rng : RNG) :
    Except String (Population × RNG) :=
  if healthcare_risk_factor < 0 then
    Except.error "IndexError: too many indices for array"
  else
    Except.ok (worker_population, rng)

/-- One frame of the outer loop for the state-machine claims: `infect`
followed by `recover_or_die`. -/
def frameStep (icfg : InfCfg) (rcfg : RecCfg)
    (st : Population × Dests × RNG) : Population × Dests × RNG :=
  let s1 := infect icfg st.1 st.2.1 st.2.2
  let s2 := recover_or_die rcfg s1.1 s1.2.2
  (s2.1, s1.2.1, s2.2)

/-- A sequence of frames of the outer loop. -/
def runFrames (frames : List (InfCfg × RecCfg))
    (st : Population × Dests × RNG) : Population × Dests × RNG :=
  frames.foldl (fun s fc => frameStep fc.1 fc.2 s) st

/-- Boolean check that the `id` column of each row starting at offset `n`
equals its row index. -/
def wfFrom : Nat → Population → Bool
  | _, [] => true
  | n, a :: as => (a.id == n) && wfFrom (n + 1) as

/-- Decidable form of the data-model invariant that ids equal row
positions. -/
def wfB (pop : Population) : Bool := wfFrom 0 pop

/-- The data-model invariant of the population matrix: the stable id of
each row equals its row index. -/
def WF (pop : Population) : Prop :=
  ∀ (i : Nat) (a : Agent), pop[i]? = some a → a.id = i

/-- Spec-side neighborhood test: both coordinate differences strictly
within the infection range. -/
def inBoxSpec (patient q : Agent) (r : ℚ) : Prop :=
  |q.x - patient.x| < r ∧ |q.y - patient.y| < r

instance inBoxSpecDecidable (patient q : Agent) (r : ℚ) :
    Decidable (inBoxSpec patient q r) := by
  unfold inBoxSpec
  infer_instance

/-- Per-position transition relation realized by `infect`: a row keeps
its state, or moves from healthy (or, idempotently, infected) to
infected. -/
def fstep (s s' : HState) : Prop :=
  s' = s ∨ ((s = HState.healthy ∨ s = HState.infected) ∧ s' = HState.infected)

/-- Row-wise simulation relation between a population and a later
in-call mutation of it inside `infect`: same length, ids preserved,
states related by `fstep`. -/
def PopStep (cur cur' : Population) : Prop :=
  cur'.length = cur.length ∧
    ∀ (j : Nat) (a' : Agent), cur'[j]? = some a' →
      ∃ a : Agent, cur[j]? = some a ∧ a'.id = a.id ∧ fstep a.state a'.state

/-- The forward state order of the spec: Healthy → Infected →
{Recovered, Dead}, with Recovered and Dead terminal. -/
def reachable (s s' : HState) : Prop :=
  s' = s ∨
    (s = HState.healthy ∧
      (s' = HState.infected ∨ s' = HState.recovered ∨ s' = HState.dead)) ∨
    (s = HState.infected ∧ (s' = HState.recovered ∨ s' = HState.dead))

/-- Row-wise relation between the sick-snapshot working copy at entry of
the resolution loop of `recover_or_die` and any later in-call mutation of
it: the id is preserved, and the row is unchanged or resolved to
Recovered or Dead with the treatment slot cleared. -/
def Rbase (a a' : Agent) : Prop :=
  a'.id = a.id ∧
    (a' = a ∨ ((a'.state = HState.recovered ∨ a'.state = HState.dead) ∧
      a'.in_treatment = false))

end CoronaSim

namespace CoronaSim

theorem getq_lt {α : Type} : ∀ (l : List α) (i : Nat) (a : α),
    l[i]? = some a → i < l.length
  | [], i, a, h => by simp at h
  | b :: bs, 0, a, _ => by simp
  | b :: bs, i + 1, a, h => by
    simp only [List.getElem?_cons_succ] at h
    exact Nat.succ_lt_succ (getq_lt bs i a h)

theorem getq_some_of_lt {α : Type} : ∀ (l : List α) (i : Nat),
    i < l.length → ∃ a, l[i]? = some a
  | [], i, h => absurd h (by simp)
  | b :: bs, 0, _ => ⟨b, by simp⟩
  | b :: bs, i + 1, h => by
    simpa only [List.getElem?_cons_succ] using
      getq_some_of_lt bs i (Nat.lt_of_succ_lt_succ h)

theorem mem_of_getq {α : Type} : ∀ (l : List α) (i : Nat) (a : α),
    l[i]? = some a → a ∈ l
  | [], i, a, h => by simp at h
  | b :: bs, 0, a, h => by
    simp only [List.getElem?_cons_zero, Option.some.injEq] at h
    exact h ▸ List.mem_cons_self b bs
  | b :: bs, i + 1, a, h => by
    simp only [List.getElem?_cons_succ] at h
    exact List.mem_cons_of_mem b (mem_of_getq bs i a h)

theorem getq_of_mem {α : Type} : ∀ (l : List α) (a : α),
    a ∈ l → ∃ i : Nat, l[i]? = some a
  | [], a, h => absurd h (by simp)
  | b :: bs, a, h => by
    rcases List.mem_cons.mp h with h | h
    · exact ⟨0, by simp [h]⟩
    · obtain ⟨i, hi⟩ := getq_of_mem bs a h
      exact ⟨i + 1, by simpa only [List.getElem?_cons_succ] using hi⟩

theorem lmod_length {α : Type} : ∀ (n : Nat) (f : α → α) (l : List α),
    (lmod n f l).length = l.length
  | n, _, [] => by cases n <;> rfl
  | 0, f, a :: as => rfl
  | n + 1, f, a :: as => by
    simp only [lmod, List.length_cons, lmod_length n f as]

theorem getq_lmod_self {α : Type} : ∀ (n : Nat) (f : α → α) (l : List α),
    (lmod n f l)[n]? = (l[n]?).map f
  | _, _, [] => by simp [lmod]
  | 0, f, a :: as => by simp [lmod]
  | n + 1, f, a :: as => by
    simpa only [lmod, List.getElem?_cons_succ] using getq_lmod_self n f as

theorem getq_lmod_ne {α : Type} : ∀ (n m : Nat) (f : α → α) (l : List α),
    m ≠ n → (lmod n f l)[m]? = l[m]?
  | _, _, _, [], _ => by simp [lmod]
  | 0, 0, f, a :: as, h => absurd rfl h
  | 0, m + 1, f, a :: as, _ => by simp [lmod]
  | n + 1, 0, f, a :: as, _ => by simp [lmod]
  | n + 1, m + 1, f, a :: as, h => by
    simpa only [lmod, List.getElem?_cons_succ] using
      getq_lmod_ne n m f as (fun hc => h (by omega))

theorem maskAssign_length (p : Agent → Bool) : ∀ (pop : Population) (repl : List Agent),
    (maskAssign p pop repl).length = pop.length
  | [], _ => rfl
  | a :: as, [] => by simp only [maskAssign, List.length_cons, maskAssign_length p as]
  | a :: as, r :: rs => by
    by_cases h : p a
    · simp [maskAssign, h, maskAssign_length p as]
    · simp [maskAssign, h, maskAssign_length p as]

theorem maskAssign_getq_neg (p : Agent → Bool) :
    ∀ (pop : Population) (repl : List Agent) (i : Nat) (a : Agent),
      pop[i]? = some a → p a = false → (maskAssign p pop repl)[i]? = some a
  | [], _, i, a, h, _ => by simp at h
  | b :: bs, [], 0, a, h, hp => by
    simp only [List.getElem?_cons_zero, Option.some.injEq] at h
    subst h
    simp [maskAssign]
  | b :: bs, [], i + 1, a, h, hp => by
    simp only [List.getElem?_cons_succ] at h
    simpa only [maskAssign, List.getElem?_cons_succ] using
      maskAssign_getq_neg p bs [] i a h hp
  | b :: bs, r :: rs, 0, a, h, hp => by
    simp only [List.getElem?_cons_zero, Option.some.injEq] at h
    subst h
    simp [maskAssign, hp]
  | b :: bs, r :: rs, i + 1, a, h, hp => by
    simp only [List.getElem?_cons_succ] at h
    by_cases hb : p b
    · simpa [maskAssign, hb] using maskAssign_getq_neg p bs rs i a h hp
    · simpa [maskAssign, hb] using maskAssign_getq_neg p bs (r :: rs) i a h hp

theorem maskAssign_getq_pos (p : Agent → Bool) (Q : Agent → Agent → Prop) :
    ∀ (pop : Population) (repl : List Agent),
      List.Forall₂ Q (pop.filter p) repl →
      ∀ (i : Nat) (a : Agent), pop[i]? = some a → p a = true →
        ∃ a', a' ∈ repl ∧ (maskAssign p pop repl)[i]? = some a' ∧ Q a a'
  | [], _, _, i, a, h, _ => by simp at h
  | b :: bs, repl, hf, i, a, h, hp => by
    by_cases hb : p b
    · rw [List.filter_cons_of_pos hb] at hf
      cases hf with
      | cons hQ hf =>
        rename_i r rs
        cases i with
        | zero =>
          simp only [List.getElem?_cons_zero, Option.some.injEq] at h
          subst h
          exact ⟨r, List.mem_cons_self r rs, by simp [maskAssign, hb], hQ⟩
        | succ i =>
          simp only [List.getElem?_cons_succ] at h
          obtain ⟨a', ha'mem, ha'get, ha'Q⟩ := maskAssign_getq_pos p Q bs rs hf i a h hp
          exact ⟨a', List.mem_cons_of_mem r ha'mem,
            by simpa only [maskAssign, hb, if_true, List.getElem?_cons_succ] using ha'get, ha'Q⟩
    · rw [List.filter_cons_of_neg hb] at hf
      cases i with
      | zero =>
        simp only [List.getElem?_cons_zero, Option.some.injEq] at h
        subst h
        exact absurd hp (by simp [hb])
      | succ i =>
        simp only [List.getElem?_cons_succ] at h
        obtain ⟨a', ha'mem, ha'get, ha'Q⟩ := maskAssign_getq_pos p Q bs repl hf i a h hp
        refine ⟨a', ha'mem, ?_, ha'Q⟩
        cases repl with
        | nil => simpa only [maskAssign, List.getElem?_cons_succ] using ha'get
        | cons r rs => simpa [maskAssign, hb] using ha'get

theorem wfFrom_get : ∀ (pop : Population) (n i : Nat) (a : Agent),
    wfFrom n pop = true → pop[i]? = some a → a.id = n + i
  | [], n, i, a, _, h => by simp at h
  | b :: bs, n, 0, a, hwf, h => by
    simp only [List.getElem?_cons_zero, Option.some.injEq] at h
    simp only [wfFrom, Bool.and_eq_true, beq_iff_eq] at hwf
    subst h
    simpa using hwf.1
  | b :: bs, n, i + 1, a, hwf, h => by
    simp only [List.getElem?_cons_succ] at h
    simp only [wfFrom, Bool.and_eq_true] at hwf
    have := wfFrom_get bs (n + 1) i a hwf.2 h
    omega

theorem WF_of_wfB (pop : Population) (h : wfB pop = true) : WF pop := by
  intro i a hget
  simpa using wfFrom_get pop 0 i a h hget

theorem WF_getq_of_mem {pop : Population} {a : Agent} (hwf : WF pop)
    (h : a ∈ pop) : pop[a.id]? = some a := by
  obtain ⟨i, hi⟩ := getq_of_mem pop a h
  rw [hwf i a hi]
  exact hi

theorem forall₂_map_right {Q : Agent → Agent → Prop} (f : Agent → Agent)
    (hf : ∀ a b, Q a b → Q a (f b)) :
    ∀ (l l' : List Agent), List.Forall₂ Q l l' → List.Forall₂ Q l (l'.map f)
  | [], [], _ => by simp
  | _, _, List.Forall₂.cons h hs => by
    rename_i a b l l'
    simpa using List.Forall₂.cons (hf a b h) (forall₂_map_right f hf l l' hs)

end CoronaSim

namespace CoronaSim

theorem quadA_base (ra ca : Nat) (A : ℚ) (hA : A ≠ 1) :
    (ra : ℚ) - 1 + quadA ra ca A = A * ((ca : ℚ) - (ra : ℚ) + 1) / (1 - A) := by
  have h1 : A - 1 ≠ 0 := sub_ne_zero.mpr hA
  have h2 : (1 : ℚ) - A ≠ 0 := sub_ne_zero.mpr (Ne.symm hA)
  unfold quadA
  field_simp
  ring

theorem quadA_base_pos (ra ca : Nat) (A : ℚ) (h : ra < ca) (hA0 : 0 < A)
    (hA1 : A < 1) : 0 < (ra : ℚ) - 1 + quadA ra ca A := by
  rw [quadA_base ra ca A (ne_of_lt hA1)]
  have hca : (ra : ℚ) < (ca : ℚ) := by exact_mod_cast h
  have h1 : (0 : ℚ) < (ca : ℚ) - (ra : ℚ) + 1 := by linarith
  exact div_pos (mul_pos hA0 h1) (by linarith)

theorem quadA_base_ne (ra ca : Nat) (A : ℚ) (h : ra < ca) (hA0 : 0 < A)
    (hA1 : A ≠ 1) : (ra : ℚ) - 1 + quadA ra ca A ≠ 0 := by
  rw [quadA_base ra ca A hA1]
  have hca : (ra : ℚ) < (ca : ℚ) := by exact_mod_cast h
  have h1 : A * ((ca : ℚ) - (ra : ℚ) + 1) ≠ 0 :=
    mul_ne_zero (ne_of_gt hA0) (by linarith)
  exact div_ne_zero h1 (sub_ne_zero.mpr (Ne.symm hA1))

theorem quad_top (ra ca : Nat) (A : ℚ) (hA0 : A ≠ 0) (hA1 : A ≠ 1) :
    (ca : ℚ) + quadA ra ca A = ((ra : ℚ) - 1 + quadA ra ca A) / A := by
  have h1 : A - 1 ≠ 0 := sub_ne_zero.mpr hA1
  unfold quadA
  field_simp
  ring

theorem quadB_base (ra ca : Nat) (mc A : ℚ)
    (hbase : (ra : ℚ) - 1 + quadA ra ca A ≠ 0) :
    quadB ra ca mc A * (((ra : ℚ) - 1 + quadA ra ca A) ^ 15) = mc := by
  unfold quadB
  field_simp

theorem quadB_top (ra ca : Nat) (mc cmc A : ℚ)
    (hbase : (ra : ℚ) - 1 + quadA ra ca A ≠ 0)
    (hA0 : A ≠ 0) (hA1 : A ≠ 1) (hroot : A ^ 15 * cmc = mc) :
    quadB ra ca mc A * (((ca : ℚ) + quadA ra ca A) ^ 15) = cmc := by
  have hA15 : A ^ 15 ≠ 0 := pow_ne_zero _ hA0
  rw [quad_top ra ca A hA0 hA1, div_pow, ← mul_div_assoc,
    quadB_base ra ca mc A hbase, ← hroot]
  exact mul_div_cancel_left₀ cmc hA15

theorem quadB_pos (ra ca : Nat) (mc A : ℚ) (hmc : 0 < mc)
    (hbase : 0 < (ra : ℚ) - 1 + quadA ra ca A) : 0 < quadB ra ca mc A :=
  div_pos hmc (pow_pos hbase 15)

theorem cm_lo (age ra ca : Nat) (mc cmc A : ℚ) (mode : RiskMode)
    (h : age ≤ ra) :
    compute_mortality age mc ra ca cmc mode A = mc := by
  unfold compute_mortality
  rw [if_neg (fun hc : ra < age ∧ age < ca => absurd hc.1 (by omega)), if_pos h]

theorem cm_hi (age ra ca : Nat) (mc cmc A : ℚ) (mode : RiskMode)
    (h1 : ra < ca) (h2 : ca ≤ age) :
    compute_mortality age mc ra ca cmc mode A = cmc := by
  unfold compute_mortality
  rw [if_neg (fun hc : ra < age ∧ age < ca => absurd hc.2 (by omega)),
    if_neg (by omega : ¬ age ≤ ra)]

theorem cm_mid_quad (age ra ca : Nat) (mc cmc A : ℚ)
    (h1 : ra < age) (h2 : age < ca) :
    compute_mortality age mc ra ca cmc RiskMode.quadratic A =
      quadRisk age ra ca mc A := by
  unfold compute_mortality
  rw [if_pos ⟨h1, h2⟩]

theorem cm_mid_lin (age ra ca : Nat) (mc cmc A : ℚ)
    (h1 : ra < age) (h2 : age < ca) :
    compute_mortality age mc ra ca cmc RiskMode.linear A =
      linearRisk age ra ca cmc := by
  unfold compute_mortality
  rw [if_pos ⟨h1, h2⟩]

theorem quadX_mono (a1 a2 ca : Nat) (hca : 2 ≤ ca) (h : a1 ≤ a2) :
    quadX a1 ca ≤ quadX a2 ca := by
  unfold quadX
  have hc : (2 : ℚ) ≤ (ca : ℚ) := by exact_mod_cast hca
  have hd : (0 : ℚ) < (ca : ℚ) - 1 := by linarith
  have hn : (a1 : ℚ) - 1 ≤ (a2 : ℚ) - 1 := by
    have : (a1 : ℚ) ≤ (a2 : ℚ) := by exact_mod_cast h
    linarith
  have hm : ((a1 : ℚ) - 1) * (ca : ℚ) ≤ ((a2 : ℚ) - 1) * (ca : ℚ) :=
    mul_le_mul_of_nonneg_right hn (by linarith)
  rw [div_le_div_iff hd hd]
  exact mul_le_mul_of_nonneg_right hm (le_of_lt hd)

theorem quadX_ge_base (n ra ca : Nat) (h1 : ra < n) (h2 : 1 ≤ ra)
    (hca : 2 ≤ ca) : (ra : ℚ) - 1 ≤ quadX n ca := by
  unfold quadX
  have hc : (2 : ℚ) ≤ (ca : ℚ) := by exact_mod_cast hca
  have hd : (0 : ℚ) < (ca : ℚ) - 1 := by linarith
  rw [le_div_iff hd]
  have hn : (ra : ℚ) + 1 ≤ (n : ℚ) := by exact_mod_cast Nat.succ_le_of_lt h1
  have hra : (1 : ℚ) ≤ (ra : ℚ) := by exact_mod_cast h2
  nlinarith

theorem quadX_le_top (n ca : Nat) (h : n < ca) (hca : 2 ≤ ca) :
    quadX n ca ≤ (ca : ℚ) := by
  unfold quadX
  have hc : (2 : ℚ) ≤ (ca : ℚ) := by exact_mod_cast hca
  have hd : (0 : ℚ) < (ca : ℚ) - 1 := by linarith
  rw [div_le_iff hd]
  have hn : (n : ℚ) ≤ (ca : ℚ) := by exact_mod_cast Nat.le_of_lt h
  nlinarith

theorem quadX_top (ca : Nat) (hca : 2 ≤ ca) : quadX ca ca = (ca : ℚ) := by
  unfold quadX
  have hc : (2 : ℚ) ≤ (ca : ℚ) := by exact_mod_cast hca
  have hd : (ca : ℚ) - 1 ≠ 0 := by intro h; linarith [sub_eq_zero.mp h]
  rw [div_eq_iff hd]
  ring

theorem quadRisk_top (ra ca : Nat) (mc cmc A : ℚ) (hrange : ra < ca)
    (hca : 2 ≤ ca) (hA0 : 0 < A) (hA1 : A ≠ 1) (hroot : A ^ 15 * cmc = mc) :
    quadRisk ca ra ca mc A = cmc := by
  unfold quadRisk
  rw [quadX_top ca hca, mul_comm]
  exact quadB_top ra ca mc cmc A (quadA_base_ne ra ca A hrange hA0 hA1)
    (ne_of_gt hA0) hA1 hroot

theorem linearRisk_top (ra ca : Nat) (cmc : ℚ) :
    linearRisk ca ra ca cmc = cmc := by
  simp [linearRisk]

end CoronaSim

namespace CoronaSim

theorem quad_cm_mono (mc cmc A : ℚ) (ra ca : Nat) (hrange : ra < ca)
    (hra1 : 1 ≤ ra) (hmc : 0 < mc) (hA0 : 0 < A) (hA1 : A < 1)
    (hroot : A ^ 15 * cmc = mc) :
    ∀ a1 a2 : Nat, a1 ≤ a2 →
      compute_mortality a1 mc ra ca cmc RiskMode.quadratic A ≤
        compute_mortality a2 mc ra ca cmc RiskMode.quadratic A := by
  intro a1 a2 h12
  have hca2 : 2 ≤ ca := by omega
  have hbase : 0 < (ra : ℚ) - 1 + quadA ra ca A :=
    quadA_base_pos ra ca A hrange hA0 hA1
  have hb : 0 < quadB ra ca mc A := quadB_pos ra ca mc A hmc hbase
  have htop : (ca : ℚ) + quadA ra ca A = ((ra : ℚ) - 1 + quadA ra ca A) / A :=
    quad_top ra ca A (ne_of_gt hA0) (ne_of_lt hA1)
  have hbasetop : (ra : ℚ) - 1 + quadA ra ca A ≤ (ca : ℚ) + quadA ra ca A := by
    rw [htop, le_div_iff hA0]
    nlinarith
  have hmc_eq : quadB ra ca mc A * (((ra : ℚ) - 1 + quadA ra ca A) ^ 15) = mc :=
    quadB_base ra ca mc A (ne_of_gt hbase)
  have hcmc_eq : quadB ra ca mc A * (((ca : ℚ) + quadA ra ca A) ^ 15) = cmc :=
    quadB_top ra ca mc cmc A (ne_of_gt hbase) (ne_of_gt hA0) (ne_of_lt hA1) hroot
  have key : ∀ u v : ℚ, 0 ≤ u → u ≤ v →
      quadB ra ca mc A * (u ^ 15) ≤ quadB ra ca mc A * (v ^ 15) := by
    intro u v hu huv
    exact mul_le_mul_of_nonneg_left (pow_le_pow_left hu huv 15) (le_of_lt hb)
  have hmid_eq : ∀ n : Nat, ra < n → n < ca →
      compute_mortality n mc ra ca cmc RiskMode.quadratic A =
        quadB ra ca mc A * ((quadX n ca + quadA ra ca A) ^ 15) := by
    intro n hn1 hn2
    rw [cm_mid_quad n ra ca mc cmc A hn1 hn2]
    unfold quadRisk
    ring
  have hmid_base : ∀ n : Nat, ra < n →
      (ra : ℚ) - 1 + quadA ra ca A ≤ quadX n ca + quadA ra ca A := by
    intro n hn
    have := quadX_ge_base n ra ca hn hra1 hca2
    linarith
  rcases le_or_lt a1 ra with hlo1 | hgt1
  · rw [cm_lo a1 ra ca mc cmc A RiskMode.quadratic hlo1]
    rcases le_or_lt a2 ra with hlo2 | hgt2
    · rw [cm_lo a2 ra ca mc cmc A RiskMode.quadratic hlo2]
    · rcases lt_or_le a2 ca with hmid2 | hhi2
      · rw [hmid_eq a2 hgt2 hmid2]
        have := key _ _ (le_of_lt hbase) (hmid_base a2 hgt2)
        linarith
      · rw [cm_hi a2 ra ca mc cmc A RiskMode.quadratic hrange hhi2]
        have := key _ _ (le_of_lt hbase) hbasetop
        linarith
  · rcases lt_or_le a1 ca with hmid1 | hhi1
    · rw [hmid_eq a1 hgt1 hmid1]
      have hx1pos : 0 ≤ quadX a1 ca + quadA ra ca A :=
        le_trans (le_of_lt hbase) (hmid_base a1 hgt1)
      rcases lt_or_le a2 ca with hmid2 | hhi2
      · rw [hmid_eq a2 (by omega) hmid2]
        have := quadX_mono a1 a2 ca hca2 h12
        exact key _ _ hx1pos (by linarith)
      · rw [cm_hi a2 ra ca mc cmc A RiskMode.quadratic hrange hhi2]
        have h1 := quadX_le_top a1 ca hmid1 hca2
        have := key _ _ hx1pos (by linarith :
          quadX a1 ca + quadA ra ca A ≤ (ca : ℚ) + quadA ra ca A)
        linarith
    · rw [cm_hi a1 ra ca mc cmc A RiskMode.quadratic hrange hhi1,
        cm_hi a2 ra ca mc cmc A RiskMode.quadratic hrange (by omega)]

end CoronaSim

namespace CoronaSim

theorem lin_cm_mono (mc cmc A : ℚ) (ra ca : Nat) (hrange : ra < ca)
    (hcmc : 0 ≤ cmc) :
    ∀ a1 a2 : Nat, ra < a1 → a1 ≤ a2 → a2 < ca →
      compute_mortality a1 mc ra ca cmc RiskMode.linear A ≤
        compute_mortality a2 mc ra ca cmc RiskMode.linear A := by
  intro a1 a2 h1 h12 h2
  rw [cm_mid_lin a1 ra ca mc cmc A h1 (by omega),
    cm_mid_lin a2 ra ca mc cmc A (by omega) h2]
  unfold linearRisk
  have hca : (ra : ℚ) < (ca : ℚ) := by exact_mod_cast hrange
  have hstep : 0 ≤ cmc / ((ca : ℚ) - (ra : ℚ) + 1) :=
    div_nonneg hcmc (by linarith)
  have hle : (a1 : ℚ) ≤ (a2 : ℚ) := by exact_mod_cast h12
  have := mul_le_mul_of_nonneg_right
    (by linarith : (ca : ℚ) - (a2 : ℚ) ≤ (ca : ℚ) - (a1 : ℚ)) hstep
  linarith

/-- C6 (amended): with `risk_age < critical_age`, `compute_mortality`
equals the base chance at `risk_age` and the critical chance at
`critical_age` in both modes; it is non-decreasing over the open
interior in linear mode and over the whole age range in quadratic mode
(for a positive base chance below the critical chance); and the interior
interpolation formula of each mode is continuous at the upper boundary,
its value at `critical_age` being the critical chance.  (At the lower
boundary neither interior formula reproduces the base chance in
general, and in linear mode the risk can drop when age passes
`risk_age`; see the counterexample.) -/
theorem mortality_curve_props (mc cmc A : ℚ) (ra ca : Nat)
    (hrange : ra < ca) (hra1 : 1 ≤ ra) (hmc : 0 < mc) (hcmc : 0 ≤ cmc)
    (hA0 : 0 < A) (hA1 : A < 1) (hroot : A ^ 15 * cmc = mc) :
    (∀ mode : RiskMode, compute_mortality ra mc ra ca cmc mode A = mc) ∧
    (∀ mode : RiskMode, compute_mortality ca mc ra ca cmc mode A = cmc) ∧
    (∀ a1 a2 : Nat, ra < a1 → a1 ≤ a2 → a2 < ca →
      compute_mortality a1 mc ra ca cmc RiskMode.linear A ≤
        compute_mortality a2 mc ra ca cmc RiskMode.linear A) ∧
    (∀ a1 a2 : Nat, a1 ≤ a2 →
      compute_mortality a1 mc ra ca cmc RiskMode.quadratic A ≤
        compute_mortality a2 mc ra ca cmc RiskMode.quadratic A) ∧
    linearRisk ca ra ca cmc = cmc ∧
    quadRisk ca ra ca mc A = cmc := by
  refine ⟨fun mode => cm_lo ra ra ca mc cmc A mode (le_refl ra),
    fun mode => cm_hi ca ra ca mc cmc A mode hrange (le_refl ca),
    lin_cm_mono mc cmc A ra ca hrange hcmc,
    quad_cm_mono mc cmc A ra ca hrange hra1 hmc hA0 hA1 hroot,
    linearRisk_top ra ca cmc,
    quadRisk_top ra ca mc cmc A hrange (by omega) hA0 (ne_of_lt hA1) hroot⟩

/-- C6 counterexample: with base chance 1/5, critical chance 1/2,
`risk_age = 50`, `critical_age = 80` in linear mode, the risk at age 50
is 1/5 but at age 51 only 1/31 — the curve is not non-decreasing over
`[risk_age, critical_age]` — and the linear interior formula evaluates
to 1/62 ≠ 1/5 at the lower boundary age, so it is not continuous
there. -/
theorem mortality_curve_cex :
    compute_mortality 50 ((1 : ℚ)/5) 50 80 ((1 : ℚ)/2) RiskMode.linear 0 = 1/5 ∧
    compute_mortality 51 ((1 : ℚ)/5) 50 80 ((1 : ℚ)/2) RiskMode.linear 0 = 1/31 ∧
    ¬ (compute_mortality 50 ((1 : ℚ)/5) 50 80 ((1 : ℚ)/2) RiskMode.linear 0 ≤
        compute_mortality 51 ((1 : ℚ)/5) 50 80 ((1 : ℚ)/2) RiskMode.linear 0) ∧
    linearRisk 50 50 80 ((1 : ℚ)/2) ≠ (1 : ℚ)/5 := by
  refine ⟨?_, ?_, ?_, ?_⟩ <;>
    norm_num [compute_mortality, linearRisk]

theorem mortality_curve_props_witness :
    compute_mortality 2 ((1 : ℚ)/32768) 2 4 1 RiskMode.linear ((1 : ℚ)/2)
      = 1/32768 :=
  (mortality_curve_props ((1 : ℚ)/32768) 1 ((1 : ℚ)/2) 2 4 (by norm_num)
    (by norm_num) (by norm_num) (by norm_num) (by norm_num) (by norm_num)
    (by norm_num)).1 RiskMode.linear

/-- C7 (amended): in the interior of the age range the quadratic mode
returns `b * (x + a) ^ 15` where `a` and `b` are the closed-form
constants making the monomial pass through `(risk_age - 1,
mortality_chance)` and `(critical_age, critical_mortality_chance)`, but
evaluated at the linspace sample point
`x = (age - 1) * critical_age / (critical_age - 1)`, not at
`x = age - 1`. -/
theorem quad_curve_fit (mc cmc A : ℚ) (ra ca age : Nat)
    (h1 : ra < age) (h2 : age < ca)
    (hA0 : 0 < A) (hA1 : A ≠ 1) (hroot : A ^ 15 * cmc = mc) :
    quadB ra ca mc A * (((ra : ℚ) - 1 + quadA ra ca A) ^ 15) = mc ∧
    quadB ra ca mc A * (((ca : ℚ) + quadA ra ca A) ^ 15) = cmc ∧
    compute_mortality age mc ra ca cmc RiskMode.quadratic A =
      quadB ra ca mc A *
        ((((age : ℚ) - 1) * (ca : ℚ) / ((ca : ℚ) - 1) + quadA ra ca A) ^ 15) := by
  have hrange : ra < ca := by omega
  have hbase : (ra : ℚ) - 1 + quadA ra ca A ≠ 0 :=
    quadA_base_ne ra ca A hrange hA0 hA1
  refine ⟨quadB_base ra ca mc A hbase,
    quadB_top ra ca mc cmc A hbase (ne_of_gt hA0) hA1 hroot, ?_⟩
  rw [cm_mid_quad age ra ca mc cmc A h1 h2]
  unfold quadRisk quadX
  ring

/-- C7 counterexample: with `mortality_chance = 1/32768`,
`critical_mortality_chance = 1`, `risk_age = 2`, `critical_age = 4`, the
fifteenth root of the chance ratio is exactly 1/2 and the closed-form
constants are `a = 2` and `b = 1/(32768 * 3^15)`; the fitted monomial
passes through `(risk_age - 1, mortality_chance)` and `(critical_age,
critical_mortality_chance)`, but at age 3 the code does not return the
monomial evaluated at `x = age - 1 = 2`: it reads the linspace sample
point `8/3` instead. -/
theorem quad_eval_point_cex :
    ((1 : ℚ)/2) ^ 15 * 1 = (1 : ℚ)/32768 ∧
    quadA 2 4 ((1 : ℚ)/2) = 2 ∧
    quadB 2 4 ((1 : ℚ)/32768) ((1 : ℚ)/2) = 1/(32768 * 3 ^ 15) ∧
    ((1 : ℚ)/(32768 * 3 ^ 15)) * (((2 : ℚ) - 1) + 2) ^ 15 = 1/32768 ∧
    ((1 : ℚ)/(32768 * 3 ^ 15)) * ((4 : ℚ) + 2) ^ 15 = 1 ∧
    compute_mortality 3 ((1 : ℚ)/32768) 2 4 1 RiskMode.quadratic ((1 : ℚ)/2) ≠
      ((1 : ℚ)/(32768 * 3 ^ 15)) * (((3 : ℚ) - 1) + 2) ^ 15 := by
  refine ⟨by norm_num, ?_, ?_, by norm_num, by norm_num, ?_⟩ <;>
    norm_num [compute_mortality, quadRisk, quadA, quadB, quadX]

theorem quad_curve_fit_witness :
    compute_mortality 3 ((1 : ℚ)/32768) 2 4 1 RiskMode.quadratic ((1 : ℚ)/2) =
      quadB 2 4 ((1 : ℚ)/32768) ((1 : ℚ)/2) *
        ((((3 : ℚ) - 1) * (4 : ℚ) / ((4 : ℚ) - 1) + quadA 2 4 ((1 : ℚ)/2)) ^ 15) :=
  (quad_curve_fit ((1 : ℚ)/32768) 1 ((1 : ℚ)/2) 2 4 3 (by norm_num)
    (by norm_num) (by norm_num) (by norm_num) (by norm_num)).2.2

end CoronaSim

namespace CoronaSim

theorem resolveOne_fst (cfg : RecCfg) (st : List Agent × RNG) (idx : Nat) :
    ∃ s : HState, (resolveOne cfg st idx).1 = st.1.map (fun a =>
        if a.id == idx then { a with state := s, in_treatment := false } else a) ∧
      (s = HState.recovered ∨ s = HState.dead) := by
  exact ⟨_, rfl, Or.symm (ite_eq_or_eq _ _ _)⟩

theorem resolveOne_pointwise (cfg : RecCfg) (st : List Agent × RNG) (idx : Nat) :
    ∃ f : Agent → Agent, (resolveOne cfg st idx).1 = st.1.map f ∧
      ∀ a : Agent,
        (f a).id = a.id ∧
        (a.id ≠ idx → f a = a) ∧
        (f a = a ∨ (((f a).state = HState.recovered ∨ (f a).state = HState.dead) ∧
          (f a).in_treatment = false)) ∧
        (a.id = idx →
          (f a).state = HState.recovered ∨ (f a).state = HState.dead) := by
  obtain ⟨s, hmap, hs⟩ := resolveOne_fst cfg st idx
  refine ⟨_, hmap, fun a => ?_⟩
  by_cases hid : a.id = idx <;>
    rcases hs with hs | hs <;>
      simp [hid, hs]

end CoronaSim

namespace CoronaSim

theorem resolveFold_rbase (cfg : RecCfg) :
    ∀ (idxs : List Nat) (st : List Agent × RNG) (sick₀ : List Agent),
      List.Forall₂ Rbase sick₀ st.1 →
      List.Forall₂ Rbase sick₀
        (idxs.foldl (fun s i => resolveOne cfg s i) st).1
  | [], st, sick₀, h => h
  | idx :: rest, st, sick₀, h => by
    rw [List.foldl_cons]
    apply resolveFold_rbase cfg rest (resolveOne cfg st idx) sick₀
    obtain ⟨f, hmap, hprops⟩ := resolveOne_pointwise cfg st idx
    rw [hmap]
    apply forall₂_map_right f _ sick₀ st.1 h
    intro a b hR
    obtain ⟨hid, _, hkeep, _⟩ := hprops b
    rcases hkeep with hkeep | hkeep
    · rw [hkeep]; exact hR
    · exact ⟨hid.trans hR.1, Or.inr hkeep⟩

theorem resolveOne_resolves (cfg : RecCfg) (st : List Agent × RNG) (idx : Nat) :
    ∀ a' ∈ (resolveOne cfg st idx).1, a'.id = idx →
      a'.state = HState.recovered ∨ a'.state = HState.dead := by
  obtain ⟨f, hmap, hprops⟩ := resolveOne_pointwise cfg st idx
  rw [hmap]
  intro a' ha' hid
  obtain ⟨b, hb, hfb⟩ := List.mem_map.mp ha'
  obtain ⟨hbid, hbne, _, hbres⟩ := hprops b
  by_cases hcase : b.id = idx
  · rw [← hfb]; exact hbres hcase
  · rw [hbne hcase] at hfb
    exact absurd (hfb ▸ hid) hcase

theorem resolveFold_keeps (cfg : RecCfg) (j : Nat) :
    ∀ (idxs : List Nat) (st : List Agent × RNG),
      (∀ a' ∈ st.1, a'.id = j →
        a'.state = HState.recovered ∨ a'.state = HState.dead) →
      ∀ a' ∈ (idxs.foldl (fun s i => resolveOne cfg s i) st).1, a'.id = j →
        a'.state = HState.recovered ∨ a'.state = HState.dead
  | [], st, h => h
  | idx :: rest, st, h => by
    rw [List.foldl_cons]
    apply resolveFold_keeps cfg j rest (resolveOne cfg st idx)
    obtain ⟨f, hmap, hprops⟩ := resolveOne_pointwise cfg st idx
    rw [hmap]
    intro a' ha' hid
    obtain ⟨b, hb, hfb⟩ := List.mem_map.mp ha'
    obtain ⟨hbid, hbne, hbkeep, hbres⟩ := hprops b
    rcases hbkeep with hbkeep | hbkeep
    · rw [hbkeep] at hfb
      rw [← hfb]
      exact h b hb (by rw [hfb]; exact hid)
    · rw [← hfb]; exact hbkeep.1

theorem resolveFold_mem (cfg : RecCfg) :
    ∀ (idxs : List Nat) (st : List Agent × RNG) (idx : Nat), idx ∈ idxs →
      ∀ a' ∈ (idxs.foldl (fun s i => resolveOne cfg s i) st).1, a'.id = idx →
        a'.state = HState.recovered ∨ a'.state = HState.dead
  | [], _, _, hmem => absurd hmem (by simp)
  | i :: rest, st, idx, hmem => by
    rw [List.foldl_cons]
    rcases List.mem_cons.mp hmem with heq | hmem'
    · subst heq
      exact resolveFold_keeps cfg idx rest (resolveOne cfg st idx)
        (resolveOne_resolves cfg st idx)
    · exact resolveFold_mem cfg rest (resolveOne cfg st i) idx hmem'

theorem recover_or_die_fst (cfg : RecCfg) (pop : Population) (rng : RNG) :
    (recover_or_die cfg pop rng).1 =
      maskAssign (fun a => a.state == HState.infected) pop
        ((((pop.filter (fun a => a.state == HState.infected)).filter
            (fun a => decide (a.recovery_threshold ≤ recoveryOdds cfg a))).map
              (fun a => a.id)).foldl (fun st idx => resolveOne cfg st idx)
          (pop.filter (fun a => a.state == HState.infected), rng)).1 := rfl

theorem recover_pointwise (cfg : RecCfg) (pop : Population) (rng : RNG)
    (i : Nat) (a : Agent) (ha : pop[i]? = some a) :
    ∃ a', (recover_or_die cfg pop rng).1[i]? = some a' ∧ Rbase a a' ∧
      (a.state ≠ HState.infected → a' = a) := by
  rw [recover_or_die_fst]
  by_cases hpa : a.state = HState.infected
  · have hforall : List.Forall₂ Rbase
        (pop.filter (fun a => a.state == HState.infected))
        ((((pop.filter (fun a => a.state == HState.infected)).filter
            (fun a => decide (a.recovery_threshold ≤ recoveryOdds cfg a))).map
              (fun a => a.id)).foldl (fun st idx => resolveOne cfg st idx)
          (pop.filter (fun a => a.state == HState.infected), rng)).1 :=
      resolveFold_rbase cfg _ _ _
        (List.forall₂_same.mpr fun b _ => ⟨rfl, Or.inl rfl⟩)
    obtain ⟨a', hmem, hget, hR⟩ := maskAssign_getq_pos _ Rbase pop _ hforall i a ha
      (by simp [hpa])
    exact ⟨a', hget, hR, fun hc => absurd hpa hc⟩
  · refine ⟨a, ?_, ⟨rfl, Or.inl rfl⟩, fun _ => rfl⟩
    exact maskAssign_getq_neg _ pop _ i a ha (by simp [hpa])

/-- C10: every agent that is not Infected at entry of `recover_or_die`
is returned with its entire row unchanged: the working copy contains
only the rows marked infected at entry, and the write-back assigns only
to rows satisfying the infected mask. -/
theorem recover_frame_effect (cfg : RecCfg) (pop : Population) (rng : RNG)
    (i : Nat) (a : Agent) (ha : pop[i]? = some a)
    (hne : a.state ≠ HState.infected) :
    (recover_or_die cfg pop rng).1[i]? = some a := by
  rw [recover_or_die_fst]
  exact maskAssign_getq_neg _ pop _ i a ha (by simp [hne])

theorem recover_frame_effect_witness :
    (recover_or_die ⟨7, (5, 10), 0, 50, 80, 1/2, RiskMode.linear, 0, 1,
        false, false, 1⟩
      [⟨0, 0, 0, HState.recovered, 30, 0, 1/2, false, 0, 0, 0⟩] [1]).1[0]? =
      some ⟨0, 0, 0, HState.recovered, 30, 0, 1/2, false, 0, 0, 0⟩ :=
  recover_frame_effect _ _ _ 0 _ (by rfl) (by decide)

end CoronaSim

namespace CoronaSim

theorem recover_writeback_aux (cfg : RecCfg) (pop : Population) (rng : RNG)
    (hwf : WF pop) (i : Nat) (a : Agent) (ha : pop[i]? = some a)
    (hinf : a.state = HState.infected)
    (hres : a.recovery_threshold ≤ recoveryOdds cfg a) :
    ∃ a', (recover_or_die cfg pop rng).1[i]? = some a' ∧ a'.id = i ∧
      (a'.state = HState.recovered ∨ a'.state = HState.dead) := by
  rw [recover_or_die_fst]
  have hforall := resolveFold_rbase cfg
    (((pop.filter (fun a => a.state == HState.infected)).filter
      (fun a => decide (a.recovery_threshold ≤ recoveryOdds cfg a))).map
        (fun a => a.id))
    (pop.filter (fun a => a.state == HState.infected), rng)
    (pop.filter (fun a => a.state == HState.infected))
    (List.forall₂_same.mpr fun b _ => ⟨rfl, Or.inl rfl⟩)
  obtain ⟨a', hmem, hget, hR⟩ :=
    maskAssign_getq_pos _ Rbase pop _ hforall i a ha (by simp [hinf])
  refine ⟨a', hget, hR.1.trans (hwf i a ha), ?_⟩
  have hmempop : a ∈ pop := mem_of_getq pop i a ha
  have hsick : a ∈ pop.filter (fun a => a.state == HState.infected) :=
    List.mem_filter.mpr ⟨hmempop, by simp [hinf]⟩
  have hresf : a ∈ (pop.filter (fun a => a.state == HState.infected)).filter
      (fun a => decide (a.recovery_threshold ≤ recoveryOdds cfg a)) :=
    List.mem_filter.mpr ⟨hsick, decide_eq_true hres⟩
  have hidx : a.id ∈ ((pop.filter (fun a => a.state == HState.infected)).filter
      (fun a => decide (a.recovery_threshold ≤ recoveryOdds cfg a))).map
        (fun a => a.id) := List.mem_map_of_mem _ hresf
  exact resolveFold_mem cfg _ _ a.id hidx a' hmem hR.1

/-- C2: outcomes of simultaneously resolving agents are not lost by the
snapshot-then-scatter write-back: every agent that is Infected at entry
and whose illness progress has reached its personal threshold ends the
call with state Recovered or Dead in its own row of the full population,
attributable by its id. -/
theorem recover_writeback (cfg : RecCfg) (pop : Population) (rng : RNG)
    (hwf : WF pop) (i : Nat) (a : Agent) (ha : pop[i]? = some a)
    (hinf : a.state = HState.infected)
    (hres : a.recovery_threshold ≤ recoveryOdds cfg a) :
    ∃ a', (recover_or_die cfg pop rng).1[i]? = some a' ∧ a'.id = i ∧
      (a'.state = HState.recovered ∨ a'.state = HState.dead) :=
  recover_writeback_aux cfg pop rng hwf i a ha hinf hres

theorem recover_writeback_witness :
    (∃ a', (recover_or_die
        ⟨8, (5, 10), 0, 50, 80, 1/2, RiskMode.linear, 0, 1, false, false, 1⟩
        [⟨0, 0, 0, HState.infected, 30, 0, 1/2, false, 0, 0, 0⟩,
         ⟨1, 5, 5, HState.infected, 30, 0, 1/2, false, 0, 0, 0⟩] [1]).1[0]? =
          some a' ∧ a'.id = 0 ∧
        (a'.state = HState.recovered ∨ a'.state = HState.dead)) ∧
    (∃ a', (recover_or_die
        ⟨8, (5, 10), 0, 50, 80, 1/2, RiskMode.linear, 0, 1, false, false, 1⟩
        [⟨0, 0, 0, HState.infected, 30, 0, 1/2, false, 0, 0, 0⟩,
         ⟨1, 5, 5, HState.infected, 30, 0, 1/2, false, 0, 0, 0⟩] [1]).1[1]? =
          some a' ∧ a'.id = 1 ∧
        (a'.state = HState.recovered ∨ a'.state = HState.dead)) :=
  ⟨recover_writeback _ _ _ (WF_of_wfB _ (by decide)) 0
      ⟨0, 0, 0, HState.infected, 30, 0, 1/2, false, 0, 0, 0⟩ rfl
      rfl (by norm_num [recoveryOdds, ptp]),
    recover_writeback _ _ _ (WF_of_wfB _ (by decide)) 1
      ⟨1, 5, 5, HState.infected, 30, 0, 1/2, false, 0, 0, 0⟩ rfl
      rfl (by norm_num [recoveryOdds, ptp])⟩

theorem resolveFold_unres (cfg : RecCfg) (S : List Nat) :
    ∀ (idxs : List Nat) (st : List Agent × RNG) (sick₀ : List Agent),
      (∀ idx ∈ idxs, idx ∈ S) →
      List.Forall₂ (fun a a' => a'.id = a.id ∧ (a' = a ∨ a.id ∈ S)) sick₀ st.1 →
      List.Forall₂ (fun a a' => a'.id = a.id ∧ (a' = a ∨ a.id ∈ S)) sick₀
        (idxs.foldl (fun s i => resolveOne cfg s i) st).1
  | [], _, _, _, h => h
  | idx :: rest, st, sick₀, hS, h => by
    rw [List.foldl_cons]
    apply resolveFold_unres cfg S rest _ sick₀
      (fun j hj => hS j (List.mem_cons_of_mem idx hj))
    obtain ⟨f, hmap, hprops⟩ := resolveOne_pointwise cfg st idx
    rw [hmap]
    apply forall₂_map_right f _ _ _ h
    intro a b hR
    obtain ⟨hbid, hbne, _, _⟩ := hprops b
    by_cases hcase : b.id = idx
    · refine ⟨hbid.trans hR.1, Or.inr ?_⟩
      rw [← hR.1, hcase]
      exact hS idx (List.mem_cons_self idx rest)
    · rw [hbne hcase]; exact hR

end CoronaSim

namespace CoronaSim

theorem recover_unresolved_aux (cfg : RecCfg) (pop : Population) (rng : RNG)
    (hwf : WF pop) (i : Nat) (a : Agent) (ha : pop[i]? = some a)
    (hinf : a.state = HState.infected)
    (hres : ¬ a.recovery_threshold ≤ recoveryOdds cfg a) :
    (recover_or_die cfg pop rng).1[i]? = some a := by
  rw [recover_or_die_fst]
  have hforall := resolveFold_unres cfg
    (((pop.filter (fun a => a.state == HState.infected)).filter
      (fun a => decide (a.recovery_threshold ≤ recoveryOdds cfg a))).map
        (fun a => a.id))
    (((pop.filter (fun a => a.state == HState.infected)).filter
      (fun a => decide (a.recovery_threshold ≤ recoveryOdds cfg a))).map
        (fun a => a.id))
    (pop.filter (fun a => a.state == HState.infected), rng)
    (pop.filter (fun a => a.state == HState.infected))
    (fun idx h => h)
    (List.forall₂_same.mpr fun b _ => ⟨rfl, Or.inl rfl⟩)
  obtain ⟨a', hmem, hget, hR⟩ := maskAssign_getq_pos _ _ pop _ hforall i a ha
    (by simp [hinf])
  rcases hR.2 with heq | hmemS
  · rw [heq] at hget
    exact hget
  · obtain ⟨b, hbf, hbid⟩ := List.mem_map.mp hmemS
    have hbres := (List.mem_filter.mp hbf).2
    have hbpop : b ∈ pop := (List.mem_filter.mp (List.mem_filter.mp hbf).1).1
    have hbget : pop[b.id]? = some b := WF_getq_of_mem hwf hbpop
    rw [hbid, hwf i a ha] at hbget
    rw [ha] at hbget
    have hba : b = a := (Option.some.inj hbget).symm
    rw [hba] at hbres
    exact absurd (of_decide_eq_true hbres) hres

/-- C8: the illness progress of an Infected agent is
`(frame - infection_frame - recovery_duration_min) /
(recovery_duration_max - recovery_duration_min)` clamped below at 0 with
no upper clamp, the agent resolves in a `recover_or_die` call exactly
when that progress has reached its `recovery_threshold`, and with
`recovery_duration = (5, 10)`, threshold 1/2 and `infection_frame = 0`
the progress is 2/5 at frame 7 (no resolution) and 3/5 at frame 8 (first
resolution). -/
theorem recovery_timing :
    (∀ (cfg : RecCfg) (a : Agent),
      cfg.recovery_duration.1 ≤ cfg.recovery_duration.2 →
      recoveryOdds cfg a = max 0 ((((cfg.frame : ℚ) - (a.infection_frame : ℚ)) -
        cfg.recovery_duration.1) /
          (cfg.recovery_duration.2 - cfg.recovery_duration.1))) ∧
    (∀ (cfg : RecCfg) (pop : Population) (rng : RNG), WF pop →
      ∀ (i : Nat) (a : Agent), pop[i]? = some a → a.state = HState.infected →
        ∃ a', (recover_or_die cfg pop rng).1[i]? = some a' ∧
          ((a'.state = HState.recovered ∨ a'.state = HState.dead) ↔
            a.recovery_threshold ≤ recoveryOdds cfg a)) ∧
    recoveryOdds ⟨7, (5, 10), 0, 50, 80, 1/2, RiskMode.linear, 0, 1,
        false, false, 1⟩
      ⟨0, 0, 0, HState.infected, 30, 0, 1/2, false, 0, 0, 0⟩ = 2/5 ∧
    (recover_or_die ⟨7, (5, 10), 0, 50, 80, 1/2, RiskMode.linear, 0, 1,
        false, false, 1⟩
      [⟨0, 0, 0, HState.infected, 30, 0, 1/2, false, 0, 0, 0⟩] [1]).1 =
      [⟨0, 0, 0, HState.infected, 30, 0, 1/2, false, 0, 0, 0⟩] ∧
    recoveryOdds ⟨8, (5, 10), 0, 50, 80, 1/2, RiskMode.linear, 0, 1,
        false, false, 1⟩
      ⟨0, 0, 0, HState.infected, 30, 0, 1/2, false, 0, 0, 0⟩ = 3/5 ∧
    (recover_or_die ⟨8, (5, 10), 0, 50, 80, 1/2, RiskMode.linear, 0, 1,
        false, false, 1⟩
      [⟨0, 0, 0, HState.infected, 30, 0, 1/2, false, 0, 0, 0⟩] [1]).1 =
      [⟨0, 0, 0, HState.recovered, 30, 0, 1/2, false, 0, 0, 0⟩] := by
  refine ⟨?_, ?_, ?_, ?_, ?_, ?_⟩
  · intro cfg a h
    unfold recoveryOdds ptp
    rw [max_eq_right h, min_eq_left h]
  · intro cfg pop rng hwf i a ha hinf
    by_cases hres : a.recovery_threshold ≤ recoveryOdds cfg a
    · obtain ⟨a', hget, _, hstate⟩ :=
        recover_writeback_aux cfg pop rng hwf i a ha hinf hres
      exact ⟨a', hget, iff_of_true hstate hres⟩
    · refine ⟨a, recover_unresolved_aux cfg pop rng hwf i a ha hinf hres, ?_⟩
      rw [hinf]
      simp only [hres, iff_false]
      rintro (h | h) <;> exact HState.noConfusion h
  · norm_num [recoveryOdds, ptp]
  · norm_num [recover_or_die, recoveryOdds, ptp, resolveOne, maskAssign, rdraw]
  · norm_num [recoveryOdds, ptp]
  · norm_num [recover_or_die, recoveryOdds, ptp, resolveOne, maskAssign, rdraw]

theorem recovery_timing_witness :
    recoveryOdds ⟨9, (5, 10), 0, 50, 80, 1/2, RiskMode.linear, 0, 1,
        false, false, 1⟩
      ⟨0, 0, 0, HState.infected, 30, 0, 1/2, false, 0, 0, 0⟩ =
      max 0 ((((9 : Nat) : ℚ) - ((0 : Nat) : ℚ) - 5) / (10 - 5)) :=
  recovery_timing.1
    ⟨9, (5, 10), 0, 50, 80, 1/2, RiskMode.linear, 0, 1, false, false, 1⟩
    ⟨0, 0, 0, HState.infected, 30, 0, 1/2, false, 0, 0, 0⟩ (by norm_num)

end CoronaSim

namespace CoronaSim

/-- C9: the claim describes the documented intent (cure a proportion of
sick workers equal to the magnitude of a negative factor), but for every
negative `healthcare_risk_factor` the source indexes the one-dimensional
sick-state column copy as `sick_workers[:,6]` and raises `IndexError`
before any write-back, so no worker is ever cured and no population is
returned. -/
theorem healthcare_correction_raises (wp : Population) (f : ℚ) (rng : RNG)
    (h : f < 0) :
    healthcare_infection_correction wp f rng =
      Except.error "IndexError: too many indices for array" := by
  unfold healthcare_infection_correction
  rw [if_pos h]

theorem healthcare_correction_raises_witness :
    healthcare_infection_correction
      [⟨0, 0, 0, HState.infected, 30, 0, 1/2, false, 0, 0, 0⟩] (-(1/2)) [] =
      Except.error "IndexError: too many indices for array" :=
  healthcare_correction_raises _ _ _ (by norm_num)

theorem treatedCount_lmod_le (idx : Nat) (f : Agent → Agent) :
    ∀ pop : Population, treatedCount (lmod idx f pop) ≤ treatedCount pop + 1 := by
  induction idx with
  | zero =>
    intro pop
    cases pop with
    | nil => simp [lmod]
    | cons a as =>
      simp only [lmod, treatedCount, List.countP_cons]
      by_cases h1 : (f a).in_treatment <;> by_cases h2 : a.in_treatment <;>
        simp [h1, h2] <;> omega
  | succ n ih =>
    intro pop
    cases pop with
    | nil => simp [lmod]
    | cons a as =>
      simp only [lmod, treatedCount, List.countP_cons]
      have := ih as
      unfold treatedCount at this
      omega

theorem treatedCount_lmod_keep (idx : Nat) (f : Agent → Agent) :
    ∀ pop : Population,
      (∀ a : Agent, pop[idx]? = some a → (f a).in_treatment = a.in_treatment) →
      treatedCount (lmod idx f pop) = treatedCount pop := by
  induction idx with
  | zero =>
    intro pop hf
    cases pop with
    | nil => rfl
    | cons a as =>
      simp only [lmod, treatedCount, List.countP_cons]
      rw [hf a (by simp)]
  | succ n ih =>
    intro pop hf
    cases pop with
    | nil => rfl
    | cons a as =>
      simp only [lmod, treatedCount, List.countP_cons]
      have h2 := ih as (fun b hb => hf b (by simpa using hb))
      simp only [treatedCount] at h2
      omega

theorem go_to_location_fields (patient : Agent) (destination : DestRow)
    (lb : ℚ × ℚ × ℚ × ℚ) (dest_no : Nat)
    (motion : ℚ × ℚ × ℚ × ℚ → ℚ × ℚ × ℚ × ℚ) :
    (go_to_location patient destination lb dest_no motion).1.id = patient.id ∧
    (go_to_location patient destination lb dest_no motion).1.state = patient.state ∧
    (go_to_location patient destination lb dest_no motion).1.in_treatment =
      patient.in_treatment ∧
    (go_to_location patient destination lb dest_no motion).1.infection_frame =
      patient.infection_frame :=
  ⟨rfl, rfl, rfl, rfl⟩

theorem treatedCount_routeIdx (cfg : InfCfg) (idx : Nat) (pop : Population)
    (dests : Dests) :
    treatedCount (routeIdx cfg idx pop dests).1 = treatedCount pop := by
  unfold routeIdx
  rcases hp : pop[idx]? with _ | a
  · simp
  · rcases hd : dests[idx]? with _ | d
    · simp
    · simp only
      exact treatedCount_lmod_keep idx _ pop (fun b hb => by
        rw [hp] at hb
        cases Option.some.inj hb
        exact (go_to_location_fields a d cfg.location_bounds cfg.location_no
          cfg.motion).2.2.1)

theorem newlyInfect_cap (cfg : InfCfg) (idx : Nat) (b : Bool)
    (st : Population × Dests × RNG)
    (h : treatedCount st.1 ≤ cfg.healthcare_capacity + 1) :
    treatedCount (newlyInfect cfg idx b st).1 ≤ cfg.healthcare_capacity + 1 := by
  unfold newlyInfect
  dsimp only
  have hkeep : treatedCount (lmod idx (fun a =>
      { a with state := HState.infected, infection_frame := cfg.frame }) st.1) =
      treatedCount st.1 :=
    treatedCount_lmod_keep idx _ st.1 (fun a _ => rfl)
  by_cases h1 : treatedCount (lmod idx (fun a =>
      { a with state := HState.infected, infection_frame := cfg.frame }) st.1) ≤
      cfg.healthcare_capacity
  · rw [if_pos h1]
    have h2 : treatedCount (lmod idx (fun a => { a with in_treatment := true })
        (lmod idx (fun a =>
          { a with state := HState.infected, infection_frame := cfg.frame })
            st.1)) ≤ cfg.healthcare_capacity + 1 := by
      have := treatedCount_lmod_le idx (fun a => { a with in_treatment := true })
        (lmod idx (fun a =>
          { a with state := HState.infected, infection_frame := cfg.frame }) st.1)
      omega
    by_cases h3 : cfg.send_to_location
    · rw [if_pos h3]
      by_cases h4 : (if b then (rdraw st.2.2).1 < cfg.location_odds
          else (rdraw st.2.2).1 ≤ cfg.location_odds)
      · rw [if_pos h4]
        simpa [treatedCount_routeIdx] using h2
      · rw [if_neg h4]
        exact h2
    · rw [if_neg h3]
      exact h2
  · rw [if_neg h1]
    rw [hkeep]
    exact h

theorem infectIdx_cap (cfg : InfCfg) (idx : Nat) (st : Population × Dests × RNG)
    (h : treatedCount st.1 ≤ cfg.healthcare_capacity + 1) :
    treatedCount (infectIdx cfg idx st).1 ≤ cfg.healthcare_capacity + 1 := by
  unfold infectIdx
  dsimp only
  by_cases h1 : (rdraw st.2.2).1 < cfg.infection_chance
  · rw [if_pos h1]
    exact newlyInfect_cap cfg idx false _ h
  · rw [if_neg h1]
    exact h

theorem sparseInner_cap (cfg : InfCfg) :
    ∀ (idxs : List Nat) (st : Population × Dests × RNG),
      treatedCount st.1 ≤ cfg.healthcare_capacity + 1 →
      treatedCount (sparseInner cfg idxs st).1 ≤ cfg.healthcare_capacity + 1
  | [], _, h => h
  | idx :: rest, st, h => by
    unfold sparseInner
    rw [List.foldl_cons]
    exact sparseInner_cap cfg rest (infectIdx cfg idx st) (infectIdx_cap cfg idx st h)

theorem sparsePatients_cap (cfg : InfCfg) :
    ∀ (patients : List Agent) (st : Population × Dests × RNG),
      treatedCount st.1 ≤ cfg.healthcare_capacity + 1 →
      treatedCount (sparsePatients cfg patients st).1 ≤ cfg.healthcare_capacity + 1
  | [], _, h => h
  | patient :: rest, st, h => by
    unfold sparsePatients
    rw [List.foldl_cons]
    exact sparsePatients_cap cfg rest _
      (sparseInner_cap cfg (sparseIndices cfg st.1 patient) st h)

theorem densePerson_cap (cfg : InfCfg) (sick : List Agent) (person : Agent)
    (st : Population × Dests × RNG)
    (h : treatedCount st.1 ≤ cfg.healthcare_capacity + 1) :
    treatedCount (densePerson cfg sick person st).1 ≤
      cfg.healthcare_capacity + 1 := by
  unfold densePerson
  dsimp only
  by_cases h1 : person.state == HState.healthy
  · rw [if_pos h1]
    by_cases h2 : 0 < denseCount cfg sick person
    · rw [if_pos h2]
      by_cases h3 : (rdraw st.2.2).1 <
          cfg.infection_chance * (denseCount cfg sick person : ℚ)
      · rw [if_pos h3]
        exact newlyInfect_cap cfg person.id true _ h
      · rw [if_neg h3]
        exact h
    · rw [if_neg h2]
      exact h
  · rw [if_neg h1]
    exact h

theorem densePeople_cap (cfg : InfCfg) (sick : List Agent) :
    ∀ (people : List Agent) (st : Population × Dests × RNG),
      treatedCount st.1 ≤ cfg.healthcare_capacity + 1 →
      treatedCount (densePeople cfg people sick st).1 ≤ cfg.healthcare_capacity + 1
  | [], _, h => h
  | person :: rest, st, h => by
    unfold densePeople
    rw [List.foldl_cons]
    exact densePeople_cap cfg sick rest _ (densePerson_cap cfg sick person st h)

/-- C1 (amended): the admission gate of `infect` checks
`treated count ≤ healthcare_capacity` with a non-strict comparison
before admitting, so one admission past capacity is possible: after any
single `infect` call the number of agents with `in_treatment = true` is
at most `healthcare_capacity + 1`, provided it was at entry; with
`healthcare_capacity = 0` and nobody in treatment, a newly infected
agent is still admitted (see the counterexample). -/
theorem infect_capacity_bound (cfg : InfCfg) (pop : Population) (dests : Dests)
    (rng : RNG) (h : treatedCount pop ≤ cfg.healthcare_capacity + 1) :
    treatedCount (infect cfg pop dests rng).1 ≤ cfg.healthcare_capacity + 1 := by
  unfold infect
  dsimp only
  by_cases h1 : sparseSelected cfg pop
  · rw [if_pos h1]
    exact sparsePatients_cap cfg _ _ h
  · rw [if_neg h1]
    exact densePeople_cap cfg _ _ _ h

end CoronaSim

namespace CoronaSim

/-- C1 counterexample: with `healthcare_capacity = 0`, one infected agent
at the origin and one healthy agent at (1, 1), `infection_range = 2`,
`infection_chance = 1` and a first draw of 0, a single `infect` call
infects the healthy agent and still admits it to treatment (the gate
compares the treated count 0 with `≤ 0`), so afterwards one agent has
`in_treatment = true` while `healthcare_capacity = 0`: the claimed bound
and the claimed `in_treatment = false` at zero capacity are both
violated. -/
theorem infect_capacity_cex :
    (infect ⟨2, 2, 1, 5, 0, false, (0, 0, 0, 0), 1, 1, false,
        fun _ => (0, 0, 0, 0)⟩
      [⟨0, 0, 0, HState.infected, 30, 0, 1/2, false, 0, 0, 0⟩,
       ⟨1, 1, 1, HState.healthy, 30, 0, 1/2, false, 0, 0, 0⟩] [] [0]).1 =
      [⟨0, 0, 0, HState.infected, 30, 0, 1/2, false, 0, 0, 0⟩,
       ⟨1, 1, 1, HState.infected, 30, 5, 1/2, true, 0, 0, 0⟩] ∧
    ¬ (treatedCount (infect ⟨2, 2, 1, 5, 0, false, (0, 0, 0, 0), 1, 1, false,
        fun _ => (0, 0, 0, 0)⟩
      [⟨0, 0, 0, HState.infected, 30, 0, 1/2, false, 0, 0, 0⟩,
       ⟨1, 1, 1, HState.healthy, 30, 0, 1/2, false, 0, 0, 0⟩] [] [0]).1 ≤ 0) := by
  have h : (infect ⟨2, 2, 1, 5, 0, false, (0, 0, 0, 0), 1, 1, false,
        fun _ => (0, 0, 0, 0)⟩
      [⟨0, 0, 0, HState.infected, 30, 0, 1/2, false, 0, 0, 0⟩,
       ⟨1, 1, 1, HState.healthy, 30, 0, 1/2, false, 0, 0, 0⟩] [] [0]).1 =
      [⟨0, 0, 0, HState.infected, 30, 0, 1/2, false, 0, 0, 0⟩,
       ⟨1, 1, 1, HState.infected, 30, 5, 1/2, true, 0, 0, 0⟩] := by
    with_unfolding_all decide
  refine ⟨h, ?_⟩
  rw [h]
  with_unfolding_all decide

theorem infect_capacity_bound_witness :
    treatedCount (infect ⟨2, 2, 1, 5, 0, false, (0, 0, 0, 0), 1, 1, false,
        fun _ => (0, 0, 0, 0)⟩
      [⟨0, 0, 0, HState.infected, 30, 0, 1/2, false, 0, 0, 0⟩,
       ⟨1, 1, 1, HState.healthy, 30, 0, 1/2, false, 0, 0, 0⟩] [] [0]).1 ≤ 0 + 1 :=
  infect_capacity_bound _ _ _ _ (by norm_num [treatedCount])

end CoronaSim

namespace CoronaSim

theorem inZone_iff (patient q : Agent) (r : ℚ) :
    inZone patient r q = true ↔ inBoxSpec patient q r := by
  simp only [inZone, infection_zone, Bool.and_eq_true, decide_eq_true_eq,
    inBoxSpec, abs_lt]
  constructor
  · rintro ⟨⟨⟨h1, h2⟩, h3⟩, h4⟩
    exact ⟨⟨by linarith, by linarith⟩, by linarith, by linarith⟩
  · rintro ⟨⟨h1, h2⟩, h3, h4⟩
    exact ⟨⟨⟨by linarith, by linarith⟩, by linarith⟩, by linarith⟩

theorem inZone_eq_decide (patient q : Agent) (r : ℚ) :
    inZone patient r q = decide (inBoxSpec patient q r) := by
  rw [Bool.eq_iff_iff, decide_eq_true_eq]
  exact inZone_iff patient q r

theorem newlyInfect_get (cfg : InfCfg) (idx : Nat) (b : Bool)
    (st : Population × Dests × RNG) (a : Agent) (ha : st.1[idx]? = some a) :
    ∃ a', (newlyInfect cfg idx b st).1[idx]? = some a' ∧
      a'.state = HState.infected ∧ a'.infection_frame = cfg.frame ∧
      a'.id = a.id := by
  unfold newlyInfect
  dsimp only
  have h1 : (lmod idx (fun a => { a with state := HState.infected, infection_frame := cfg.frame }) st.1)[idx]? = some { a with state := HState.infected, infection_frame := cfg.frame } := by
    rw [getq_lmod_self, ha]
    rfl
  by_cases hc : treatedCount (lmod idx (fun a =>
      { a with state := HState.infected, infection_frame := cfg.frame }) st.1) ≤
      cfg.healthcare_capacity
  · rw [if_pos hc]
    have h2 : (lmod idx (fun a => { a with in_treatment := true }) (lmod idx (fun a => { a with state := HState.infected, infection_frame := cfg.frame }) st.1))[idx]? = some { a with state := HState.infected, infection_frame := cfg.frame, in_treatment := true } := by
      rw [getq_lmod_self, h1]
      rfl
    by_cases hs : cfg.send_to_location
    · rw [if_pos hs]
      by_cases ho : (if b then (rdraw st.2.2).1 < cfg.location_odds
          else (rdraw st.2.2).1 ≤ cfg.location_odds)
      · rw [if_pos ho]
        unfold routeIdx
        rcases hp : (lmod idx (fun a => { a with in_treatment := true })
            (lmod idx (fun a => { a with state := HState.infected, infection_frame := cfg.frame }) st.1))[idx]? with _ | c
        · rw [hp] at h2
          exact absurd h2 (by simp)
        · rcases hd : st.2.1[idx]? with _ | d
          · simp only [hp, hd]
            refine ⟨c, rfl, ?_⟩
            rw [hp] at h2
            cases Option.some.inj h2
            exact ⟨rfl, rfl, rfl⟩
          · simp only [hp, hd]
            refine ⟨_, by rw [getq_lmod_self, hp]; rfl, ?_⟩
            rw [hp] at h2
            cases Option.some.inj h2
            exact ⟨rfl, rfl, rfl⟩
      · rw [if_neg ho]
        exact ⟨_, h2, rfl, rfl, rfl⟩
    · rw [if_neg hs]
      exact ⟨_, h2, rfl, rfl, rfl⟩
  · rw [if_neg hc]
    exact ⟨_, h1, rfl, rfl, rfl⟩

end CoronaSim

namespace CoronaSim

/-- C4: in the dense-infected branch the neighbor count of a susceptible
agent is the number of snapshot-sick agents whose two coordinates are
each strictly within `infection_range`, excluding those with an active
destination unless `traveling_infects` is set; and when that count `k`
is positive the agent's row becomes Infected exactly when the single
uniform draw is below `infection_chance * k`. -/
theorem dense_count_bernoulli :
    (∀ (cfg : InfCfg) (sick : List Agent) (person : Agent),
      denseCount cfg sick person =
        (sick.filter (fun s => decide (inBoxSpec person s cfg.infection_range) &&
          (s.state == HState.infected) &&
          (cfg.traveling_infects || s.dest_index == 0))).length) ∧
    (∀ (cfg : InfCfg) (sick : List Agent) (person : Agent)
        (pop : Population) (dests : Dests) (rng : RNG) (a : Agent),
      person.state = HState.healthy → pop[person.id]? = some a →
      a.state = HState.healthy → 0 < denseCount cfg sick person →
      ∃ a', (densePerson cfg sick person (pop, dests, rng)).1[person.id]? =
          some a' ∧
        (a'.state = HState.infected ↔
          (rdraw rng).1 < cfg.infection_chance * (denseCount cfg sick person : ℚ))) := by
  constructor
  · intro cfg sick person
    unfold denseCount
    cases htr : cfg.traveling_infects with
    | false =>
      simp only [Bool.false_eq_true, if_false, Bool.false_or]
      congr 1
      apply List.filter_congr
      intro s _
      rw [inZone_eq_decide]
    | true =>
      simp only [if_true, Bool.true_or, Bool.and_true]
      congr 1
      apply List.filter_congr
      intro s _
      rw [inZone_eq_decide]
  · intro cfg sick person pop dests rng a hperson ha hastate hk
    unfold densePerson
    dsimp only
    rw [if_pos (by simp [hperson] : (person.state == HState.healthy) = true)]
    rw [if_pos hk]
    by_cases hdie : (rdraw rng).1 <
        cfg.infection_chance * (denseCount cfg sick person : ℚ)
    · rw [if_pos hdie]
      obtain ⟨a', hget, hstate, _, _⟩ :=
        newlyInfect_get cfg person.id true (pop, dests, (rdraw rng).2) a ha
      exact ⟨a', hget, iff_of_true hstate hdie⟩
    · rw [if_neg hdie]
      refine ⟨a, ha, iff_of_false ?_ hdie⟩
      rw [hastate]
      exact fun h => HState.noConfusion h

theorem dense_count_bernoulli_witness :
    ∃ a', (densePerson ⟨2, 2, 1, 5, 10, false, (0, 0, 0, 0), 1, 1, false,
        fun _ => (0, 0, 0, 0)⟩
      [⟨0, 0, 0, HState.infected, 30, 0, 1/2, false, 0, 0, 0⟩]
      ⟨1, 1, 1, HState.healthy, 30, 0, 1/2, false, 0, 0, 0⟩
      ([⟨0, 0, 0, HState.infected, 30, 0, 1/2, false, 0, 0, 0⟩,
        ⟨1, 1, 1, HState.healthy, 30, 0, 1/2, false, 0, 0, 0⟩], [], [0])).1[
          (⟨1, 1, 1, HState.healthy, 30, 0, 1/2, false, 0, 0, 0⟩ : Agent).id]? =
        some a' ∧
      (a'.state = HState.infected ↔
        (rdraw [0]).1 < (1 : ℚ) *
          ((denseCount ⟨2, 2, 1, 5, 10, false, (0, 0, 0, 0), 1, 1, false,
              fun _ => (0, 0, 0, 0)⟩
            [⟨0, 0, 0, HState.infected, 30, 0, 1/2, false, 0, 0, 0⟩]
            ⟨1, 1, 1, HState.healthy, 30, 0, 1/2, false, 0, 0, 0⟩ : Nat) : ℚ)) :=
  dense_count_bernoulli.2 _ _ _ _ [] [0]
    ⟨1, 1, 1, HState.healthy, 30, 0, 1/2, false, 0, 0, 0⟩ rfl rfl rfl
    (by with_unfolding_all decide)

end CoronaSim

namespace CoronaSim

/-- C5 (amended): `infect` uses the sparse-infected strategy exactly when
the number of currently Infected agents is less than `pop_size // 2`
(Python floor division, which is below half for odd population sizes);
in that strategy a patient with an active destination while
`traveling_infects` is false contributes no susceptible agents, otherwise
the collected agents are exactly the healthy ones whose coordinates are
each strictly within `infection_range` of the patient, and each collected
agent receives one trial that infects it exactly when its own uniform
draw is below `infection_chance`. -/
theorem sparse_strategy :
    (∀ (cfg : InfCfg) (pop : Population),
      sparseSelected cfg pop = true ↔
        (pop.filter (fun a => a.state == HState.infected)).length <
          cfg.pop_size / 2) ∧
    (∀ (cfg : InfCfg) (pop : Population) (patient : Agent),
      cfg.traveling_infects = false → patient.dest_index ≠ 0 →
      sparseIndices cfg pop patient = []) ∧
    (∀ (cfg : InfCfg) (pop : Population) (patient : Agent),
      cfg.traveling_infects = true ∨ patient.dest_index = 0 →
      sparseIndices cfg pop patient =
        (pop.filter (fun q => decide (inBoxSpec patient q cfg.infection_range) &&
          (q.state == HState.healthy))).map (fun p => p.id)) ∧
    (∀ (cfg : InfCfg) (idx : Nat) (pop : Population) (dests : Dests)
        (rng : RNG) (a : Agent),
      pop[idx]? = some a → a.state = HState.healthy →
      ∃ a', (infectIdx cfg idx (pop, dests, rng)).1[idx]? = some a' ∧
        (a'.state = HState.infected ↔ (rdraw rng).1 < cfg.infection_chance)) := by
  refine ⟨?_, ?_, ?_, ?_⟩
  · intro cfg pop
    unfold sparseSelected
    exact decide_eq_true_iff
  · intro cfg pop patient htr hdest
    unfold sparseIndices
    rw [if_neg]
    simp [htr, hdest]
  · intro cfg pop patient h
    unfold sparseIndices
    rw [if_pos (by rcases h with h | h <;> simp [h])]
    congr 1
    apply List.filter_congr
    intro q _
    rw [inZone_eq_decide]
  · intro cfg idx pop dests rng a ha hastate
    unfold infectIdx
    dsimp only
    by_cases hdie : (rdraw rng).1 < cfg.infection_chance
    · rw [if_pos hdie]
      obtain ⟨a', hget, hstate, _, _⟩ :=
        newlyInfect_get cfg idx false (pop, dests, (rdraw rng).2) a ha
      exact ⟨a', hget, iff_of_true hstate hdie⟩
    · rw [if_neg hdie]
      refine ⟨a, ha, iff_of_false ?_ hdie⟩
      rw [hastate]
      exact fun h => HState.noConfusion h

/-- C5 counterexample: with 5 agents of which 2 are infected, the
infected count 2 is below half the population size (2·2 < 5), yet the
selector `len(infected) < pop_size // 2` is false (2 < 2 fails) and the
call runs the dense strategy; on this input (`infection_chance = 1/10`,
draws 3/20 then 1/2) the dense strategy infects the susceptible agent at
(1, 1) while the sparse strategy would have left it healthy, so the
strategies are observably distinct. -/
theorem sparse_selector_cex :
    2 * ((([⟨0, 0, 0, HState.infected, 30, 0, 1/2, false, 0, 0, 0⟩,
      ⟨1, 0, 0, HState.infected, 30, 0, 1/2, false, 0, 0, 0⟩,
      ⟨2, 1, 1, HState.healthy, 30, 0, 1/2, false, 0, 0, 0⟩,
      ⟨3, 100, 100, HState.healthy, 30, 0, 1/2, false, 0, 0, 0⟩,
      ⟨4, 200, 200, HState.healthy, 30, 0, 1/2, false, 0, 0, 0⟩] :
        Population).filter
        (fun a => a.state == HState.infected)).length) < 5 ∧
    sparseSelected ⟨5, 2, 1/10, 5, 10, false, (0, 0, 0, 0), 1, 1, false,
        fun _ => (0, 0, 0, 0)⟩
      [⟨0, 0, 0, HState.infected, 30, 0, 1/2, false, 0, 0, 0⟩,
       ⟨1, 0, 0, HState.infected, 30, 0, 1/2, false, 0, 0, 0⟩,
       ⟨2, 1, 1, HState.healthy, 30, 0, 1/2, false, 0, 0, 0⟩,
       ⟨3, 100, 100, HState.healthy, 30, 0, 1/2, false, 0, 0, 0⟩,
       ⟨4, 200, 200, HState.healthy, 30, 0, 1/2, false, 0, 0, 0⟩] = false ∧
    infect ⟨5, 2, 1/10, 5, 10, false, (0, 0, 0, 0), 1, 1, false,
        fun _ => (0, 0, 0, 0)⟩
      [⟨0, 0, 0, HState.infected, 30, 0, 1/2, false, 0, 0, 0⟩,
       ⟨1, 0, 0, HState.infected, 30, 0, 1/2, false, 0, 0, 0⟩,
       ⟨2, 1, 1, HState.healthy, 30, 0, 1/2, false, 0, 0, 0⟩,
       ⟨3, 100, 100, HState.healthy, 30, 0, 1/2, false, 0, 0, 0⟩,
       ⟨4, 200, 200, HState.healthy, 30, 0, 1/2, false, 0, 0, 0⟩]
      [] [15/100, 1/2] ≠
    sparsePatients ⟨5, 2, 1/10, 5, 10, false, (0, 0, 0, 0), 1, 1, false,
        fun _ => (0, 0, 0, 0)⟩
      ([⟨0, 0, 0, HState.infected, 30, 0, 1/2, false, 0, 0, 0⟩,
        ⟨1, 0, 0, HState.infected, 30, 0, 1/2, false, 0, 0, 0⟩,
        ⟨2, 1, 1, HState.healthy, 30, 0, 1/2, false, 0, 0, 0⟩,
        ⟨3, 100, 100, HState.healthy, 30, 0, 1/2, false, 0, 0, 0⟩,
        ⟨4, 200, 200, HState.healthy, 30, 0, 1/2, false, 0, 0, 0⟩].filter
          (fun a => a.state == HState.infected))
      ([⟨0, 0, 0, HState.infected, 30, 0, 1/2, false, 0, 0, 0⟩,
        ⟨1, 0, 0, HState.infected, 30, 0, 1/2, false, 0, 0, 0⟩,
        ⟨2, 1, 1, HState.healthy, 30, 0, 1/2, false, 0, 0, 0⟩,
        ⟨3, 100, 100, HState.healthy, 30, 0, 1/2, false, 0, 0, 0⟩,
        ⟨4, 200, 200, HState.healthy, 30, 0, 1/2, false, 0, 0, 0⟩],
       [], [15/100, 1/2]) := by
  refine ⟨?_, ?_, ?_⟩ <;> with_unfolding_all decide

theorem sparse_strategy_witness :
    sparseIndices ⟨5, 2, 1/10, 5, 10, false, (0, 0, 0, 0), 1, 1, false,
        fun _ => (0, 0, 0, 0)⟩
      [⟨2, 1, 1, HState.healthy, 30, 0, 1/2, false, 0, 0, 0⟩]
      ⟨0, 0, 0, HState.infected, 30, 0, 1/2, false, 5, 0, 0⟩ = [] :=
  sparse_strategy.2.1 _ _ _ rfl (by decide)

end CoronaSim

namespace CoronaSim

theorem fstep_refl (s : HState) : fstep s s := Or.inl rfl

theorem fstep_trans {s t u : HState} (h1 : fstep s t) (h2 : fstep t u) :
    fstep s u := by
  cases s <;> cases t <;> cases u <;> simp_all [fstep]

theorem reachable_refl (s : HState) : reachable s s := Or.inl rfl

theorem reachable_trans {s t u : HState} (h1 : reachable s t)
    (h2 : reachable t u) : reachable s u := by
  cases s <;> cases t <;> cases u <;> simp_all [reachable]

theorem fstep_reachable {s t : HState} (h : fstep s t) : reachable s t := by
  cases s <;> cases t <;> simp_all [fstep, reachable]

theorem PopStep_refl (cur : Population) : PopStep cur cur :=
  ⟨rfl, fun j a' h => ⟨a', h, rfl, fstep_refl _⟩⟩

theorem PopStep_getq {cur cur' : Population} (h : PopStep cur cur')
    (j : Nat) (a : Agent) (ha : cur[j]? = some a) :
    ∃ a', cur'[j]? = some a' ∧ a'.id = a.id ∧ fstep a.state a'.state := by
  have hlt : j < cur'.length := h.1 ▸ getq_lt cur j a ha
  obtain ⟨a', ha'⟩ := getq_some_of_lt cur' j hlt
  obtain ⟨b, hb, hid, hst⟩ := h.2 j a' ha'
  rw [ha] at hb
  cases Option.some.inj hb
  exact ⟨a', ha', hid, hst⟩

theorem PopStep_trans {c1 c2 c3 : Population} (h1 : PopStep c1 c2)
    (h2 : PopStep c2 c3) : PopStep c1 c3 := by
  refine ⟨h2.1.trans h1.1, fun j a3 ha3 => ?_⟩
  obtain ⟨a2, ha2, hid2, hst2⟩ := h2.2 j a3 ha3
  obtain ⟨a1, ha1, hid1, hst1⟩ := h1.2 j a2 ha2
  exact ⟨a1, ha1, hid2.trans hid1, fstep_trans hst1 hst2⟩

theorem PopStep_lmod (idx : Nat) (f : Agent → Agent) (cur : Population)
    (hf : ∀ a : Agent, cur[idx]? = some a →
      (f a).id = a.id ∧ fstep a.state (f a).state) :
    PopStep cur (lmod idx f cur) := by
  refine ⟨lmod_length idx f cur, fun j a' ha' => ?_⟩
  by_cases hj : j = idx
  · subst hj
    rw [getq_lmod_self] at ha'
    rcases hg : cur[j]? with _ | a
    · rw [hg] at ha'
      exact absurd ha' (by simp)
    · rw [hg] at ha'
      simp only [Option.map_some'] at ha'
      cases Option.some.inj ha'
      exact ⟨a, rfl, (hf a hg).1, (hf a hg).2⟩
  · rw [getq_lmod_ne idx j f cur hj] at ha'
    exact ⟨a', ha', rfl, fstep_refl _⟩

theorem routeIdx_step (cfg : InfCfg) (idx : Nat) (pop : Population)
    (dests : Dests) : PopStep pop (routeIdx cfg idx pop dests).1 := by
  unfold routeIdx
  rcases hp : pop[idx]? with _ | a
  · exact PopStep_refl pop
  · rcases hd : dests[idx]? with _ | d
    · exact PopStep_refl pop
    · simp only
      apply PopStep_lmod
      intro b hb
      rw [hp] at hb
      cases Option.some.inj hb
      exact ⟨rfl, fstep_refl _⟩

theorem notRD_transfer {cur cur' : Population} (h : PopStep cur cur')
    (j : Nat)
    (hj : ∀ a : Agent, cur[j]? = some a →
      a.state ≠ HState.recovered ∧ a.state ≠ HState.dead) :
    ∀ a' : Agent, cur'[j]? = some a' →
      a'.state ≠ HState.recovered ∧ a'.state ≠ HState.dead := by
  intro a' ha'
  obtain ⟨a, ha, _, hst⟩ := h.2 j a' ha'
  have := hj a ha
  rcases hst with heq | ⟨_, heq⟩
  · rw [heq]; exact this
  · rw [heq]; exact ⟨fun h => HState.noConfusion h, fun h => HState.noConfusion h⟩

end CoronaSim

namespace CoronaSim

theorem newlyInfect_step (cfg : InfCfg) (idx : Nat) (b : Bool)
    (st : Population × Dests × RNG)
    (hnot : ∀ a : Agent, st.1[idx]? = some a →
      a.state ≠ HState.recovered ∧ a.state ≠ HState.dead) :
    PopStep st.1 (newlyInfect cfg idx b st).1 := by
  unfold newlyInfect
  dsimp only
  have hs1 : PopStep st.1 (lmod idx (fun a =>
      { a with state := HState.infected, infection_frame := cfg.frame }) st.1) := by
    apply PopStep_lmod
    intro a ha
    refine ⟨rfl, ?_⟩
    rcases hnot a ha with ⟨h1, h2⟩
    cases hst : a.state
    · exact Or.inr ⟨Or.inl rfl, rfl⟩
    · exact Or.inr ⟨Or.inr rfl, rfl⟩
    · exact absurd hst h1
    · exact absurd hst h2
  by_cases hc : treatedCount (lmod idx (fun a =>
      { a with state := HState.infected, infection_frame := cfg.frame }) st.1) ≤
      cfg.healthcare_capacity
  · rw [if_pos hc]
    have hs2 : PopStep st.1 (lmod idx (fun a => { a with in_treatment := true })
        (lmod idx (fun a =>
          { a with state := HState.infected, infection_frame := cfg.frame })
          st.1)) :=
      PopStep_trans hs1 (PopStep_lmod _ _ _ (fun a _ => ⟨rfl, fstep_refl _⟩))
    by_cases hsend : cfg.send_to_location
    · rw [if_pos hsend]
      by_cases ho : (if b then (rdraw st.2.2).1 < cfg.location_odds
          else (rdraw st.2.2).1 ≤ cfg.location_odds)
      · rw [if_pos ho]
        exact PopStep_trans hs2 (routeIdx_step cfg idx _ st.2.1)
      · rw [if_neg ho]
        exact hs2
    · rw [if_neg hsend]
      exact hs2
  · rw [if_neg hc]
    exact hs1

theorem infectIdx_step (cfg : InfCfg) (idx : Nat)
    (st : Population × Dests × RNG)
    (hnot : ∀ a : Agent, st.1[idx]? = some a →
      a.state ≠ HState.recovered ∧ a.state ≠ HState.dead) :
    PopStep st.1 (infectIdx cfg idx st).1 := by
  unfold infectIdx
  dsimp only
  by_cases hdie : (rdraw st.2.2).1 < cfg.infection_chance
  · rw [if_pos hdie]
    exact newlyInfect_step cfg idx false (st.1, st.2.1, (rdraw st.2.2).2) hnot
  · rw [if_neg hdie]
    exact PopStep_refl st.1

theorem sparseIndices_healthy (cfg : InfCfg) (pop : Population)
    (patient : Agent) (idx : Nat) (h : idx ∈ sparseIndices cfg pop patient) :
    ∃ a : Agent, a ∈ pop ∧ a.id = idx ∧ a.state = HState.healthy := by
  unfold sparseIndices at h
  by_cases hc : (cfg.traveling_infects || patient.dest_index == 0) = true
  · rw [if_pos hc] at h
    obtain ⟨a, haf, hid⟩ := List.mem_map.mp h
    obtain ⟨hmem, hpred⟩ := List.mem_filter.mp haf
    simp only [Bool.and_eq_true, beq_iff_eq] at hpred
    exact ⟨a, hmem, hid, hpred.2⟩
  · rw [if_neg hc] at h
    exact absurd h (by simp)

theorem WF_of_PopStep {pop cur : Population} (hwf : WF pop)
    (h : PopStep pop cur) : WF cur := by
  intro i a ha
  obtain ⟨b, hb, hid, _⟩ := h.2 i a ha
  rw [hid]
  exact hwf i b hb

theorem sparseInner_step (cfg : InfCfg) :
    ∀ (idxs : List Nat) (st : Population × Dests × RNG),
      (∀ idx ∈ idxs, ∀ a : Agent, st.1[idx]? = some a →
        a.state ≠ HState.recovered ∧ a.state ≠ HState.dead) →
      PopStep st.1 (sparseInner cfg idxs st).1
  | [], st, _ => PopStep_refl st.1
  | idx :: rest, st, h => by
    unfold sparseInner
    rw [List.foldl_cons]
    have hstep : PopStep st.1 (infectIdx cfg idx st).1 :=
      infectIdx_step cfg idx st (h idx (List.mem_cons_self idx rest))
    refine PopStep_trans hstep (sparseInner_step cfg rest (infectIdx cfg idx st) ?_)
    intro j hj
    exact notRD_transfer hstep j (h j (List.mem_cons_of_mem idx hj))

theorem sparsePatients_step (cfg : InfCfg) (pop₀ : Population)
    (hwf : WF pop₀) :
    ∀ (patients : List Agent) (st : Population × Dests × RNG),
      PopStep pop₀ st.1 → PopStep pop₀ (sparsePatients cfg patients st).1
  | [], st, h => h
  | patient :: rest, st, h => by
    unfold sparsePatients
    rw [List.foldl_cons]
    have hwfcur : WF st.1 := WF_of_PopStep hwf h
    have hinner : PopStep st.1
        (sparseInner cfg (sparseIndices cfg st.1 patient) st).1 := by
      apply sparseInner_step
      intro idx hidx a ha
      obtain ⟨c, hcmem, hcid, hcstate⟩ :=
        sparseIndices_healthy cfg st.1 patient idx hidx
      have hcget : st.1[c.id]? = some c := WF_getq_of_mem hwfcur hcmem
      rw [hcid] at hcget
      rw [hcget] at ha
      cases Option.some.inj ha
      rw [hcstate]
      exact ⟨fun h => HState.noConfusion h, fun h => HState.noConfusion h⟩
    exact sparsePatients_step cfg pop₀ hwf rest _ (PopStep_trans h hinner)

theorem densePeople_step (cfg : InfCfg) (pop₀ : Population) (hwf : WF pop₀)
    (sick : List Agent) :
    ∀ (people : List Agent) (st : Population × Dests × RNG),
      (∀ p ∈ people, p ∈ pop₀ ∧ p.state = HState.healthy) →
      PopStep pop₀ st.1 → PopStep pop₀ (densePeople cfg people sick st).1
  | [], st, _, h => h
  | person :: rest, st, hpeople, h => by
    unfold densePeople
    rw [List.foldl_cons]
    have hperson := hpeople person (List.mem_cons_self person rest)
    have hget₀ : pop₀[person.id]? = some person := WF_getq_of_mem hwf hperson.1
    have hstep : PopStep st.1 (densePerson cfg sick person st).1 := by
      unfold densePerson
      dsimp only
      by_cases h1 : (person.state == HState.healthy) = true
      · rw [if_pos h1]
        by_cases h2 : 0 < denseCount cfg sick person
        · rw [if_pos h2]
          by_cases h3 : (rdraw st.2.2).1 <
              cfg.infection_chance * (denseCount cfg sick person : ℚ)
          · rw [if_pos h3]
            apply newlyInfect_step
            intro a ha
            obtain ⟨a', ha', hid, hst⟩ := PopStep_getq h person.id person hget₀
            rw [ha'] at ha
            cases Option.some.inj ha
            rcases hst with heq | ⟨_, heq⟩
            · rw [heq, hperson.2]
              exact ⟨fun h => HState.noConfusion h, fun h => HState.noConfusion h⟩
            · rw [heq]
              exact ⟨fun h => HState.noConfusion h, fun h => HState.noConfusion h⟩
          · rw [if_neg h3]
            exact PopStep_refl st.1
        · rw [if_neg h2]
          exact PopStep_refl st.1
      · rw [if_neg h1]
        exact PopStep_refl st.1
    exact densePeople_step cfg pop₀ hwf sick rest _
      (fun p hp => hpeople p (List.mem_cons_of_mem person hp))
      (PopStep_trans h hstep)

theorem infect_step (cfg : InfCfg) (pop : Population) (dests : Dests)
    (rng : RNG) (hwf : WF pop) :
    PopStep pop (infect cfg pop dests rng).1 := by
  unfold infect
  dsimp only
  by_cases hs : sparseSelected cfg pop
  · rw [if_pos hs]
    exact sparsePatients_step cfg pop hwf _ _ (PopStep_refl pop)
  · rw [if_neg hs]
    apply densePeople_step cfg pop hwf _ _ _ _ (PopStep_refl pop)
    intro p hp
    obtain ⟨hmem, hpred⟩ := List.mem_filter.mp hp
    exact ⟨hmem, by simpa using hpred⟩

end CoronaSim

namespace CoronaSim

theorem recover_length (cfg : RecCfg) (pop : Population) (rng : RNG) :
    (recover_or_die cfg pop rng).1.length = pop.length := by
  rw [recover_or_die_fst]
  exact maskAssign_length _ _ _

theorem WF_of_reach (pop₀ cur : Population) (hwf : WF pop₀)
    (hlen : cur.length = pop₀.length)
    (h : ∀ (i : Nat) (a₀ : Agent), pop₀[i]? = some a₀ →
      ∃ a, cur[i]? = some a ∧ a.id = a₀.id ∧ reachable a₀.state a.state) :
    WF cur := by
  intro i a ha
  have hlt : i < pop₀.length := hlen ▸ getq_lt cur i a ha
  obtain ⟨a₀, ha₀⟩ := getq_some_of_lt pop₀ i hlt
  obtain ⟨a', ha', hid, _⟩ := h i a₀ ha₀
  rw [ha] at ha'
  cases Option.some.inj ha'
  rw [hid]
  exact hwf i a₀ ha₀

theorem frameStep_reach (pop₀ : Population) (hwf : WF pop₀)
    (icfg : InfCfg) (rcfg : RecCfg) (st : Population × Dests × RNG)
    (h : st.1.length = pop₀.length ∧
      ∀ (i : Nat) (a₀ : Agent), pop₀[i]? = some a₀ →
        ∃ a, st.1[i]? = some a ∧ a.id = a₀.id ∧ reachable a₀.state a.state) :
    (frameStep icfg rcfg st).1.length = pop₀.length ∧
      ∀ (i : Nat) (a₀ : Agent), pop₀[i]? = some a₀ →
        ∃ a, (frameStep icfg rcfg st).1[i]? = some a ∧ a.id = a₀.id ∧
          reachable a₀.state a.state := by
  have hwfcur : WF st.1 := WF_of_reach pop₀ st.1 hwf h.1 h.2
  have hinf : PopStep st.1 (infect icfg st.1 st.2.1 st.2.2).1 :=
    infect_step icfg st.1 st.2.1 st.2.2 hwfcur
  constructor
  · show (recover_or_die rcfg (infect icfg st.1 st.2.1 st.2.2).1
      (infect icfg st.1 st.2.1 st.2.2).2.2).1.length = pop₀.length
    rw [recover_length, hinf.1, h.1]
  · intro i a₀ ha₀
    obtain ⟨a, ha, hid, hreach⟩ := h.2 i a₀ ha₀
    obtain ⟨a', ha', hid', hst'⟩ := PopStep_getq hinf i a ha
    obtain ⟨a'', ha'', hR, hni⟩ := recover_pointwise rcfg
      (infect icfg st.1 st.2.1 st.2.2).1 (infect icfg st.1 st.2.1 st.2.2).2.2
      i a' ha'
    refine ⟨a'', ha'', hR.1.trans (hid'.trans hid), ?_⟩
    have hra' : reachable a₀.state a'.state :=
      reachable_trans hreach (fstep_reachable hst')
    by_cases hkind : a'.state = HState.infected
    · rcases hR.2 with heq | ⟨hrd, _⟩
      · rw [heq]
        exact hra'
      · refine reachable_trans hra' ?_
        rw [hkind]
        exact Or.inr (Or.inr ⟨rfl, hrd⟩)
    · rw [hni hkind]
      exact hra'

theorem frames_reach (pop₀ : Population) (hwf : WF pop₀) :
    ∀ (frames : List (InfCfg × RecCfg)) (st : Population × Dests × RNG),
      (st.1.length = pop₀.length ∧
        ∀ (i : Nat) (a₀ : Agent), pop₀[i]? = some a₀ →
          ∃ a, st.1[i]? = some a ∧ a.id = a₀.id ∧ reachable a₀.state a.state) →
      ((runFrames frames st).1.length = pop₀.length ∧
        ∀ (i : Nat) (a₀ : Agent), pop₀[i]? = some a₀ →
          ∃ a, (runFrames frames st).1[i]? = some a ∧ a.id = a₀.id ∧
            reachable a₀.state a.state)
  | [], _, h => h
  | fc :: rest, st, h => by
    have hstep := frameStep_reach pop₀ hwf fc.1 fc.2 st h
    unfold runFrames
    rw [List.foldl_cons]
    exact frames_reach pop₀ hwf rest (frameStep fc.1 fc.2 st) hstep

/-- C3: states only move forward along Healthy → Infected →
{Recovered, Dead}: a single `infect` call changes a row's state only
from Healthy to Infected, a single `recover_or_die` call only from
Infected to Recovered or Dead, and over any sequence of frames of the
outer loop (each frame one `infect` then one `recover_or_die`, with any
configurations and any random draws) every agent's final state is
forward-reachable from its initial state, so no call ever moves an agent
backward.  Requires the data-model invariant that row ids equal row
positions, which both calls preserve. -/
theorem state_forward_only (pop : Population) (hwf : WF pop) :
    (∀ (cfg : InfCfg) (dests : Dests) (rng : RNG) (i : Nat) (a : Agent),
      pop[i]? = some a →
      ∃ a', (infect cfg pop dests rng).1[i]? = some a' ∧ a'.id = a.id ∧
        (a'.state = a.state ∨
          (a.state = HState.healthy ∧ a'.state = HState.infected))) ∧
    (∀ (cfg : RecCfg) (rng : RNG) (i : Nat) (a : Agent), pop[i]? = some a →
      ∃ a', (recover_or_die cfg pop rng).1[i]? = some a' ∧ a'.id = a.id ∧
        (a'.state = a.state ∨ (a.state = HState.infected ∧
          (a'.state = HState.recovered ∨ a'.state = HState.dead)))) ∧
    (∀ (frames : List (InfCfg × RecCfg)) (dests : Dests) (rng : RNG)
        (i : Nat) (a : Agent), pop[i]? = some a →
      ∃ a', (runFrames frames (pop, dests, rng)).1[i]? = some a' ∧
        a'.id = a.id ∧ reachable a.state a'.state) := by
  refine ⟨?_, ?_, ?_⟩
  · intro cfg dests rng i a ha
    obtain ⟨a', ha', hid, hst⟩ :=
      PopStep_getq (infect_step cfg pop dests rng hwf) i a ha
    refine ⟨a', ha', hid, ?_⟩
    rcases hst with heq | ⟨hhi, hinf⟩
    · exact Or.inl heq
    · rcases hhi with hh | hh
      · exact Or.inr ⟨hh, hinf⟩
      · exact Or.inl (by rw [hinf, hh])
  · intro cfg rng i a ha
    obtain ⟨a', ha', hR, hni⟩ := recover_pointwise cfg pop rng i a ha
    refine ⟨a', ha', hR.1, ?_⟩
    by_cases hkind : a.state = HState.infected
    · rcases hR.2 with heq | ⟨hrd, _⟩
      · exact Or.inl (by rw [heq])
      · exact Or.inr ⟨hkind, hrd⟩
    · exact Or.inl (by rw [hni hkind])
  · intro frames dests rng i a ha
    have := (frames_reach pop hwf frames (pop, dests, rng)
      ⟨rfl, fun j b hb => ⟨b, hb, rfl, reachable_refl _⟩⟩).2 i a ha
    exact this

theorem state_forward_only_witness :
    ∃ a', (runFrames [(⟨1, 2, 1, 5, 10, false, (0, 0, 0, 0), 1, 1, false,
        fun _ => (0, 0, 0, 0)⟩,
      ⟨8, (5, 10), 0, 50, 80, 1/2, RiskMode.linear, 0, 1, false, false, 1⟩)]
      ([⟨0, 0, 0, HState.healthy, 30, 0, 1/2, false, 0, 0, 0⟩], [],
        [0, 1])).1[0]? = some a' ∧
      a'.id = (⟨0, 0, 0, HState.healthy, 30, 0, 1/2, false, 0, 0, 0⟩ :
        Agent).id ∧
      reachable (⟨0, 0, 0, HState.healthy, 30, 0, 1/2, false, 0, 0, 0⟩ :
        Agent).state a'.state :=
  (state_forward_only [⟨0, 0, 0, HState.healthy, 30, 0, 1/2, false, 0, 0, 0⟩]
    (WF_of_wfB _ (by decide))).2.2
    [(⟨1, 2, 1, 5, 10, false, (0, 0, 0, 0), 1, 1, false,
        fun _ => (0, 0, 0, 0)⟩,
      ⟨8, (5, 10), 0, 50, 80, 1/2, RiskMode.linear, 0, 1, false, false, 1⟩)]
    [] [0, 1] 0 ⟨0, 0, 0, HState.healthy, 30, 0, 1/2, false, 0, 0, 0⟩ rfl

end CoronaSim
